import Mathlib

/-!
Verification development for the CSV ingestion / normalization pipeline and the
analytics engine of the merchant-analytics service
(`app/services/csv_data_service.py` and `app/services/analytics_engine.py`).

The pandas data frames are embedded shallowly: a data frame is a record of
column-presence flags plus a list of rows, a row is a record of cells for the
columns the pipeline reads or writes, and a cell is missing (`nan`), a string,
a number (modelled as a rational), or a timestamp (modelled as an integer time
value).  External parsing facilities (`pd.to_numeric` on strings,
`pd.to_datetime`, `str()` rendering, `datetime.now()`) are oracle parameters
gathered in `Env`.  Steps that can raise an uncaught exception return `none`.
-/

namespace MerchantPwr

/-- One cell of a data frame: missing (NaN/NaT), a string, a numeric value, or
a resolved timestamp. -/
inductive Cell where
  | nan
  | str (s : String)
  | num (q : ℚ)
  | time (t : ℤ)
deriving DecidableEq

/-- Oracles for the external facilities the pipeline delegates to: string
parsing by pandas, string rendering by Python, and the processing clock. -/
structure Env where
  /-- `pd.to_numeric` on a string cell (`errors='coerce'`: `none` means NaN). -/
  parseNumStr : String → Option ℚ
  /-- `pd.to_datetime` on a string cell (`errors='coerce'`: `none` means NaT). -/
  parseDateStr : String → Option ℤ
  /-- `pd.to_datetime` on a numeric cell. -/
  parseDateNum : ℚ → Option ℤ
  /-- `str()` of a numeric cell, as used by `.astype(str)`. -/
  showNum : ℚ → String
  /-- `str()` of a timestamp cell, as used by `.astype(str)`. -/
  showTime : ℤ → String
  /-- `.dt.date.astype(str)`: the calendar-date string of a timestamp. -/
  dateStr : ℤ → String
  /-- `datetime.now()` at processing time. -/
  now : ℤ

/-- `pd.isnull` of a cell. -/
def isNan : Cell → Bool
  | .nan => true
  | _ => false

/-- `pd.to_numeric(cell, errors='coerce')`. -/
def toNumeric (env : Env) : Cell → Cell
  | .nan => .nan
  | .num q => .num q
  | .str s => match env.parseNumStr s with
    | some q => .num q
    | none => .nan
  | .time _ => .nan

/-- `pd.to_datetime(cell, errors='coerce')`. -/
def toDatetime (env : Env) : Cell → Cell
  | .nan => .nan
  | .time t => .time t
  | .str s => match env.parseDateStr s with
    | some t => .time t
    | none => .nan
  | .num q => match env.parseDateNum q with
    | some t => .time t
    | none => .nan

/-- `.astype(str).str.upper()` of a cell (`str(nan)` is `'nan'`). -/
def cellUpperStr (env : Env) : Cell → String
  | .nan => "NAN"
  | .str s => s.toUpper
  | .num q => (env.showNum q).toUpper
  | .time t => (env.showTime t).toUpper

/-- The numeric value of a cell, when it has one. -/
def getNum : Cell → Option ℚ
  | .num q => some q
  | _ => none

/-- `cell > q` as pandas evaluates it (False on non-numeric/NaN). -/
def cellGT (c : Cell) (q : ℚ) : Bool :=
  match c with
  | .num x => decide (q < x)
  | _ => false

/-- `cell <= q` as pandas evaluates it (False on non-numeric/NaN). -/
def cellLE (c : Cell) (q : ℚ) : Bool :=
  match c with
  | .num x => decide (x ≤ q)
  | _ => false

/-- `cell <= t` on timestamp cells (False on NaT). -/
def cellTimeLE (c : Cell) (t : ℤ) : Bool :=
  match c with
  | .time u => decide (u ≤ t)
  | _ => false

/-- Divide a numeric cell by 100 (`series / 100`). -/
def divCell : Cell → Cell
  | .num q => .num (q / 100)
  | c => c

/-- The timestamp of a cell, defaulting to 0 (only applied to `time` cells). -/
def timeD : Cell → ℤ
  | .time t => t
  | _ => 0

/-- `Series.median()` of a list of numeric values: `none` on the empty list
(pandas returns NaN), otherwise the middle of the sorted values, averaging the
two middles for an even count. -/
def medianOpt (l : List ℚ) : Option ℚ :=
  if l.isEmpty then none
  else
    let s := l.insertionSort (· ≤ ·)
    let n := l.length
    if n % 2 = 1 then some (s.getD (n / 2) 0)
    else some ((s.getD (n / 2 - 1) 0 + s.getD (n / 2) 0) / 2)

/-- `median > bound`, as pandas evaluates it (False when the median is NaN). -/
def medianGT (l : List ℚ) (bound : ℚ) : Bool :=
  match medianOpt l with
  | some m => decide (bound < m)
  | none => false

/-- Round to the nearest integer, ties to even, mirroring Python `round`. -/
def roundHalfEven (x : ℚ) : ℤ :=
  let f := ⌊x⌋
  let frac := x - (f : ℚ)
  if frac < 1/2 then f
  else if 1/2 < frac then f + 1
  else if 2 ∣ f then f else f + 1

/-- Python `round(x, 2)`. -/
def round2 (x : ℚ) : ℚ := (roundHalfEven (x * 100) : ℚ) / 100

/-!
## The transaction data frame

One row of the transactions data frame, restricted to the columns
`_clean_transaction_data` reads or writes.  Columns the cleaner merely copies
from unmodelled sources and never reads again (`gateway`, `transaction_type`,
`category`) are omitted.
-/

/-- A transactions row: one cell per modelled column. -/
structure Row where
  transaction_id : Cell
  txn_id : Cell
  amount : Cell
  convenience_fees_amt_in_paise : Cell
  merchant_display_name : Cell
  merchant_name : Cell
  merchant_id : Cell
  transaction_start_date_time : Cell
  sale_txn_date_time : Cell
  txn_completion_date_time : Cell
  completed_at : Cell
  created_at : Cell
  date : Cell
  txn_status_name : Cell
  status : Cell
  payment_mode_name : Cell
  payment_method : Cell
deriving DecidableEq

/-- Which of the modelled columns are present in the data frame
(`col in df.columns`). -/
structure Cols where
  transaction_id : Bool
  txn_id : Bool
  amount : Bool
  convenience_fees_amt_in_paise : Bool
  merchant_display_name : Bool
  merchant_name : Bool
  merchant_id : Bool
  transaction_start_date_time : Bool
  sale_txn_date_time : Bool
  txn_completion_date_time : Bool
  completed_at : Bool
  created_at : Bool
  date : Bool
  txn_status_name : Bool
  status : Bool
  payment_mode_name : Bool
  payment_method : Bool
deriving DecidableEq

/-- A transactions data frame: column-presence flags plus rows.  Cells of an
absent column are dead values; every access in the pipeline is guarded by the
presence flag, mirroring `col in df.columns` guards in the source. -/
structure DF where
  cols : Cols
  rows : List Row
deriving DecidableEq

/-- A column is mostly empty: its fraction of nulls exceeds 0.8
(`null_percentages > null_threshold`), phrased over naturals. -/
def sparseB (rows : List Row) (get : Row → Cell) : Bool :=
  5 * (rows.countP fun r => isNan (get r)) > 4 * rows.length

/-- Step 1 of `_clean_transaction_data`: drop every column whose null fraction
exceeds 0.8.  Dropping clears the presence flag; the dead cells remain. -/
def pruneStep (d : DF) : DF :=
  { cols :=
      { transaction_id := d.cols.transaction_id && !sparseB d.rows (·.transaction_id)
        txn_id := d.cols.txn_id && !sparseB d.rows (·.txn_id)
        amount := d.cols.amount && !sparseB d.rows (·.amount)
        convenience_fees_amt_in_paise := d.cols.convenience_fees_amt_in_paise &&
          !sparseB d.rows (·.convenience_fees_amt_in_paise)
        merchant_display_name := d.cols.merchant_display_name &&
          !sparseB d.rows (·.merchant_display_name)
        merchant_name := d.cols.merchant_name && !sparseB d.rows (·.merchant_name)
        merchant_id := d.cols.merchant_id && !sparseB d.rows (·.merchant_id)
        transaction_start_date_time := d.cols.transaction_start_date_time &&
          !sparseB d.rows (·.transaction_start_date_time)
        sale_txn_date_time := d.cols.sale_txn_date_time && !sparseB d.rows (·.sale_txn_date_time)
        txn_completion_date_time := d.cols.txn_completion_date_time &&
          !sparseB d.rows (·.txn_completion_date_time)
        completed_at := d.cols.completed_at && !sparseB d.rows (·.completed_at)
        created_at := d.cols.created_at && !sparseB d.rows (·.created_at)
        date := d.cols.date && !sparseB d.rows (·.date)
        txn_status_name := d.cols.txn_status_name && !sparseB d.rows (·.txn_status_name)
        status := d.cols.status && !sparseB d.rows (·.status)
        payment_mode_name := d.cols.payment_mode_name && !sparseB d.rows (·.payment_mode_name)
        payment_method := d.cols.payment_method && !sparseB d.rows (·.payment_method) }
    rows := d.rows }

/-- Step 2 of `_clean_transaction_data`: the `column_mapping` loop.  Each
source column is copied onto its canonical name only when the source exists
and the target does not.  Pairs whose source and target are both unmodelled
passthrough columns are omitted; `amount → amount` is the identity pair of the
source table and can never fire. -/
def mapStep (d : DF) : DF :=
  let d := if d.cols.transaction_id && !d.cols.txn_id then
      { cols := { d.cols with txn_id := true }
        rows := d.rows.map fun r => { r with txn_id := r.transaction_id } }
    else d
  let d := if d.cols.merchant_display_name && !d.cols.merchant_name then
      { cols := { d.cols with merchant_name := true }
        rows := d.rows.map fun r => { r with merchant_name := r.merchant_display_name } }
    else d
  let d := if d.cols.txn_status_name && !d.cols.status then
      { cols := { d.cols with status := true }
        rows := d.rows.map fun r => { r with status := r.txn_status_name } }
    else d
  let d := if d.cols.payment_mode_name && !d.cols.payment_method then
      { cols := { d.cols with payment_method := true }
        rows := d.rows.map fun r => { r with payment_method := r.payment_mode_name } }
    else d
  let d := if d.cols.transaction_start_date_time && !d.cols.created_at then
      { cols := { d.cols with created_at := true }
        rows := d.rows.map fun r => { r with created_at := r.transaction_start_date_time } }
    else d
  let d := if d.cols.txn_completion_date_time && !d.cols.completed_at then
      { cols := { d.cols with completed_at := true }
        rows := d.rows.map fun r => { r with completed_at := r.txn_completion_date_time } }
    else d
  d

/-- `df.dropna(subset=[col])` for one modelled column. -/
def dropnaBy (rows : List Row) (get : Row → Cell) : List Row :=
  rows.filter fun r => !isNan (get r)

/-- Step 3 of `_clean_transaction_data`: drop rows missing a critical column,
for each critical column that is present. -/
def criticalStep (d : DF) : DF :=
  let d := if d.cols.transaction_id then
      { d with rows := dropnaBy d.rows (·.transaction_id) } else d
  let d := if d.cols.amount then
      { d with rows := dropnaBy d.rows (·.amount) } else d
  let d := if d.cols.merchant_display_name then
      { d with rows := dropnaBy d.rows (·.merchant_display_name) } else d
  let d := if d.cols.transaction_start_date_time then
      { d with rows := dropnaBy d.rows (·.transaction_start_date_time) } else d
  d

/-- The amount pipeline before the paise heuristic: coerce to numeric, drop
NaN amounts, drop non-positive amounts, drop amounts above 10,000,000. -/
def amountFiltered (env : Env) (rows : List Row) : List Row :=
  (((rows.map fun r => { r with amount := toNumeric env r.amount }).filter
      fun r => !isNan r.amount).filter
    fun r => cellGT r.amount 0).filter
  fun r => cellLE r.amount 10000000

/-- Step 4 of `_clean_transaction_data`: amount coercion, validity filters and
the paise unit-correction heuristic (divide by 100 when the
`convenience_fees_amt_in_paise` column is present and the median amount
exceeds 10,000). -/
def amountStep (env : Env) (d : DF) : DF :=
  if d.cols.amount then
    let rows := amountFiltered env d.rows
    let rows :=
      if d.cols.convenience_fees_amt_in_paise &&
          medianGT (rows.filterMap fun r => getNum r.amount) 10000 then
        rows.map fun r => { r with amount := divCell r.amount }
      else rows
    { d with rows := rows }
  else d

/-- One iteration body of the date loop: parse the candidate column into
`created_at`, drop rows with invalid dates, drop future dates, and derive the
`date` string. -/
def processDateCol (env : Env) (get : Row → Cell) (d : DF) : DF :=
  let rows := d.rows.map fun r => { r with created_at := toDatetime env (get r) }
  let rows := rows.filter fun r => !isNan r.created_at
  let rows := rows.filter fun r => cellTimeLE r.created_at env.now
  let rows := rows.map fun r => { r with date := .str (env.dateStr (timeD r.created_at)) }
  { cols := { d.cols with created_at := true, date := true }, rows := rows }

/-- One iteration of the date loop: skip once a candidate succeeded
(`break`), skip absent columns, otherwise process the candidate and record
whether any rows remain. -/
def tryDateCol (env : Env) (presentOf : DF → Bool) (get : Row → Cell) (st : DF × Bool) :
    DF × Bool :=
  if st.2 then st
  else if presentOf st.1 then
    let d1 := processDateCol env get st.1
    (d1, decide (0 < d1.rows.length))
  else st

/-- Step 5 of `_clean_transaction_data`: try the fixed candidate date columns
in order, committing to the first present one that leaves at least one row. -/
def dateStep (env : Env) (d : DF) : DF :=
  let st := tryDateCol env (·.cols.transaction_start_date_time)
    (·.transaction_start_date_time) (d, false)
  let st := tryDateCol env (·.cols.created_at) (·.created_at) st
  let st := tryDateCol env (·.cols.sale_txn_date_time) (·.sale_txn_date_time) st
  let st := tryDateCol env (·.cols.txn_completion_date_time) (·.txn_completion_date_time) st
  st.1

/-- The `status_mapping` synonym table. -/
def statusMapping (s : String) : Option String :=
  if s = "SUCCESS" ∨ s = "SUCCESSFUL" ∨ s = "CAPTURED" ∨ s = "SETTLED" ∨
      s = "COMPLETED" ∨ s = "APPROVED" then some "SUCCESS"
  else if s = "FAILED" ∨ s = "FAILURE" ∨ s = "DECLINED" ∨ s = "TIMEOUT" ∨
      s = "ERROR" ∨ s = "REJECTED" then some "FAILED"
  else if s = "PENDING" ∨ s = "INITIATED" ∨ s = "PROCESSING" then some "PENDING"
  else none

/-- `.astype(str).str.upper().map(status_mapping)` on one cell: unmapped
values become NaN. -/
def applyStatusMap (env : Env) (c : Cell) : Cell :=
  match statusMapping (cellUpperStr env c) with
  | some s => .str s
  | none => .nan

/-- Step 6 of `_clean_transaction_data`: copy `txn_status_name` over `status`
when present, then (when a status column exists) drop null statuses, map the
uppercased value through the synonym table, and drop unmapped statuses. -/
def statusStep (env : Env) (d : DF) : DF :=
  let d := if d.cols.txn_status_name then
      { cols := { d.cols with status := true }
        rows := d.rows.map fun r => { r with status := r.txn_status_name } }
    else d
  if d.cols.status then
    let rows := d.rows.filter fun r => !isNan r.status
    let rows := rows.map fun r => { r with status := applyStatusMap env r.status }
    let rows := rows.filter fun r => !isNan r.status
    { d with rows := rows }
  else d

/-- The `payment_mapping` synonym table. -/
def paymentMapping (s : String) : Option String :=
  if s = "CREDIT CARD" ∨ s = "CREDIT_CARD" then some "CREDIT_CARD"
  else if s = "DEBIT CARD" ∨ s = "DEBIT_CARD" then some "DEBIT_CARD"
  else if s = "UPI" then some "UPI"
  else if s = "NET BANKING" then some "NET_BANKING"
  else if s = "WALLET" then some "WALLET"
  else if s = "EMI" then some "EMI"
  else none

/-- `.astype(str).str.upper().map(payment_mapping)` on one cell. -/
def applyPaymentMap (env : Env) (c : Cell) : Cell :=
  match paymentMapping (cellUpperStr env c) with
  | some s => .str s
  | none => .nan

/-- The `fillna` of the payment step: an unmapped (NaN) method is replaced by
the uppercased original `payment_mode_name` value. -/
def fillPayment (env : Env) (r : Row) : Row :=
  if isNan r.payment_method then
    { r with payment_method := .str (cellUpperStr env r.payment_mode_name) }
  else r

/-- Step 7 of `_clean_transaction_data`: copy `payment_mode_name` over
`payment_method` when present, drop null methods, map through the synonym
table and fill unmapped methods from the uppercased original column.  The
fill reads `payment_mode_name` unguarded: when that column is absent the
source raises `KeyError`, modelled as `none`. -/
def paymentStep (env : Env) (d : DF) : Option DF :=
  let d := if d.cols.payment_mode_name then
      { cols := { d.cols with payment_method := true }
        rows := d.rows.map fun r => { r with payment_method := r.payment_mode_name } }
    else d
  if d.cols.payment_method then
    let rows := d.rows.filter fun r => !isNan r.payment_method
    let rows := rows.map fun r => { r with payment_method := applyPaymentMap env r.payment_method }
    if d.cols.payment_mode_name then
      some { d with rows := rows.map (fillPayment env) }
    else none
  else some d

/-- Step 8 of `_clean_transaction_data`: drop rows missing the merchant
display name, copy it to `merchant_name`, and assign the synthetic
single-tenant `merchant_id`. -/
def merchantStep (d : DF) : DF :=
  if d.cols.merchant_display_name then
    let rows := d.rows.filter fun r => !isNan r.merchant_display_name
    { cols := { d.cols with merchant_name := true, merchant_id := true }
      rows := rows.map fun r =>
        { r with merchant_name := r.merchant_display_name
                 merchant_id := .str "CSV_MERCHANT_001" } }
  else d

/-- The final quality report reads `merchant_name` unguarded when any rows
remain; with the column absent the source raises `KeyError` (`none`). -/
def finalCheck (d : DF) : Option DF :=
  if 0 < d.rows.length && !d.cols.merchant_name then none else some d

/-- `_clean_transaction_data`: the fixed-order cleaning pipeline.  An empty
frame is returned unchanged; `none` models an exception escaping to the
caller (which then records an empty frame). -/
def cleanTransactionData (env : Env) (d : DF) : Option DF :=
  if d.rows.isEmpty then some d
  else
    let d := pruneStep d
    let d := mapStep d
    let d := criticalStep d
    let d := amountStep env d
    let d := dateStep env d
    let d := statusStep env d
    match paymentStep env d with
    | none => none
    | some d => finalCheck (merchantStep d)

/-!
## The settlement data frame
-/

/-- A settlements row, restricted to the columns `_clean_settlement_data`
reads or writes. -/
structure SRow where
  amount : Cell
  settlement_amount : Cell
  actual_txn_amount : Cell
  refund_amount : Cell
  transaction_start_date_time : Cell
  settlement_date : Cell
  merchant_display_name : Cell
  merchant_name : Cell
deriving DecidableEq

/-- Column-presence flags of the settlements frame. -/
structure SCols where
  amount : Bool
  settlement_amount : Bool
  actual_txn_amount : Bool
  refund_amount : Bool
  transaction_start_date_time : Bool
  settlement_date : Bool
  merchant_display_name : Bool
  merchant_name : Bool
deriving DecidableEq

/-- A settlements data frame. -/
structure SDF where
  cols : SCols
  rows : List SRow
deriving DecidableEq

/-- Sparse-column test for settlement rows. -/
def sparseS (rows : List SRow) (get : SRow → Cell) : Bool :=
  5 * (rows.countP fun r => isNan (get r)) > 4 * rows.length

/-- Settlement step 1: drop mostly empty columns (null fraction above 0.8). -/
def prunedSCols (d : SDF) : SCols :=
  { amount := d.cols.amount && !sparseS d.rows (·.amount)
    settlement_amount := d.cols.settlement_amount && !sparseS d.rows (·.settlement_amount)
    actual_txn_amount := d.cols.actual_txn_amount && !sparseS d.rows (·.actual_txn_amount)
    refund_amount := d.cols.refund_amount && !sparseS d.rows (·.refund_amount)
    transaction_start_date_time := d.cols.transaction_start_date_time &&
      !sparseS d.rows (·.transaction_start_date_time)
    settlement_date := d.cols.settlement_date && !sparseS d.rows (·.settlement_date)
    merchant_display_name := d.cols.merchant_display_name &&
      !sparseS d.rows (·.merchant_display_name)
    merchant_name := d.cols.merchant_name && !sparseS d.rows (·.merchant_name) }

/-- One iteration of the settlement amount loop for a present column: coerce
to numeric, drop invalid values, then divide the whole column by 100 whenever
its median exceeds 10,000 — with no minor-unit indicator check. -/
def settleAmountCol (env : Env) (get : SRow → Cell) (set : Cell → SRow → SRow)
    (rows : List SRow) : List SRow :=
  let rows := rows.map fun r => set (toNumeric env (get r)) r
  let rows := rows.filter fun r => !isNan (get r)
  if medianGT (rows.filterMap fun r => getNum (get r)) 10000 then
    rows.map fun r => set (divCell (get r)) r
  else rows

/-- Settlement step 2: the `amount_columns` loop, unrolled over the four
candidate columns in source order, each guarded by presence. -/
def settleAmounts (env : Env) (cols : SCols) (rows : List SRow) : List SRow :=
  let rows := if cols.amount then
      settleAmountCol env (·.amount) (fun c r => { r with amount := c }) rows
    else rows
  let rows := if cols.settlement_amount then
      settleAmountCol env (·.settlement_amount) (fun c r => { r with settlement_amount := c }) rows
    else rows
  let rows := if cols.actual_txn_amount then
      settleAmountCol env (·.actual_txn_amount) (fun c r => { r with actual_txn_amount := c }) rows
    else rows
  let rows := if cols.refund_amount then
      settleAmountCol env (·.refund_amount) (fun c r => { r with refund_amount := c }) rows
    else rows
  rows

/-- `_clean_settlement_data`: prune sparse columns, run the amount loop,
parse `settlement_date` from `transaction_start_date_time` when present, and
copy the merchant display name. -/
def cleanSettlementData (env : Env) (d : SDF) : SDF :=
  if d.rows.isEmpty then d
  else
    let cols := prunedSCols d
    let rows := settleAmounts env cols d.rows
    let st : SCols × List SRow :=
      if cols.transaction_start_date_time then
        let rows := rows.map fun r =>
          { r with settlement_date := toDatetime env r.transaction_start_date_time }
        ({ cols with settlement_date := true }, rows.filter fun r => !isNan r.settlement_date)
      else (cols, rows)
    let st :=
      if st.1.merchant_display_name then
        let rows := st.2.filter fun r => !isNan r.merchant_display_name
        ({ st.1 with merchant_name := true },
          rows.map fun r => { r with merchant_name := r.merchant_display_name })
      else st
    { cols := st.1, rows := st.2 }

/-!
## The loaders and the data summary

The per-file load logic of `CSVDataService`.  A source file is absent,
decodable under some candidate encoding (yielding a raw frame), undecodable
under every candidate encoding, or failing with some other error caught by
the outer handler.  `none` in a loader result models the Python attribute
still holding `None` after the load.
-/

/-- The observable outcome of reading one expected CSV file. -/
inductive FileState (α : Type) where
  | absent
  | undecodable
  | failed
  | ok (d : α)

/-- A data frame with no rows and no columns (`pd.DataFrame()`). -/
def emptyDF : DF :=
  { cols := ⟨false, false, false, false, false, false, false, false, false,
      false, false, false, false, false, false, false, false⟩
    rows := [] }

/-- A settlements frame with no rows and no columns. -/
def emptySDF : SDF :=
  { cols := ⟨false, false, false, false, false, false, false, false⟩, rows := [] }

/-- `_load_transactions`: a missing file, an undecodable file (checked via
`if self.transactions_df is None`) and any other error all record an empty
frame; a decoded file is cleaned, and a cleaning exception is caught by the
outer handler, recording an empty frame. -/
def loadTransactions (env : Env) : FileState DF → DF
  | .absent => emptyDF
  | .undecodable => emptyDF
  | .failed => emptyDF
  | .ok d => (cleanTransactionData env d).getD emptyDF

/-- `_load_settlements`: a missing file or other error records an empty
frame, but when every candidate encoding fails the attribute is left as
`None` (`none`) — there is no `is None` recovery check. -/
def loadSettlements (env : Env) : FileState SDF → Option SDF
  | .absent => some emptySDF
  | .undecodable => none
  | .failed => some emptySDF
  | .ok d => some (cleanSettlementData env d)

/-- `_load_support_data`, modelled by its row count (support cleaning only
drops columns, never rows).  Like the settlements loader it leaves `None`
when every encoding fails. -/
def loadSupport : FileState ℕ → Option ℕ
  | .absent => some 0
  | .undecodable => none
  | .failed => some 0
  | .ok n => some n

/-- The three `*_loaded` counts of `get_data_summary`.  Evaluating
`self.settlements_df.empty` or `self.support_df.empty` on `None` raises
`AttributeError`, modelled as `none`. -/
def dataSummaryCounts (tdf : DF) (sdf : Option SDF) (udf : Option ℕ) :
    Option (ℕ × ℕ × ℕ) :=
  match sdf, udf with
  | some s, some u => some (tdf.rows.length, s.rows.length, u)
  | _, _ => none

/-!
## The analytics engine

`AnalyticsEngine` consumes the cleaned frame, on which the canonical columns
(`amount`, `status`, `payment_method`, `date`) exist, so its rows are embedded
as a flat record and the `col in df.columns` guards of the source are all
true.  Float arithmetic is modelled over `ℚ`.
-/

/-- A cleaned transaction as the analytics code reads it. -/
structure ATxn where
  amount : ℚ
  status : String
  payment_method : String
  date : String
deriving DecidableEq

/-- The result shape of `_calculate_day_metrics`. -/
structure DayMetrics where
  revenue : ℚ
  transactions : ℕ
  success_rate : ℚ
  avg_amount : ℚ
deriving DecidableEq

/-- `_calculate_day_metrics`: revenue and mean amount over SUCCESS rows,
count over all rows, success rate rounded to two decimals. -/
def calculateDayMetrics (data : List ATxn) : DayMetrics :=
  if data.isEmpty then ⟨0, 0, 0, 0⟩
  else
    let successful := data.filter fun t => t.status == "SUCCESS"
    { revenue := if successful.isEmpty then 0 else (successful.map (·.amount)).sum
      transactions := data.length
      success_rate := round2 ((successful.length : ℚ) / (data.length : ℚ) * 100)
      avg_amount :=
        if successful.isEmpty then 0
        else (successful.map (·.amount)).sum / (successful.length : ℚ) }

/-- The per-method statistics of `_analyze_payment_methods`. -/
structure MethodStats where
  total_revenue : ℚ
  transaction_count : ℕ
  success_rate : ℚ
  avg_amount : ℚ
deriving DecidableEq

/-- The statistics of one payment method's row subset. -/
def methodStatsFor (rows : List ATxn) : MethodStats :=
  let successful := rows.filter fun t => t.status == "SUCCESS"
  { total_revenue := if successful.isEmpty then 0 else (successful.map (·.amount)).sum
    transaction_count := rows.length
    success_rate := round2 ((successful.length : ℚ) / (rows.length : ℚ) * 100)
    avg_amount :=
      if successful.isEmpty then 0
      else (successful.map (·.amount)).sum / (successful.length : ℚ) }

/-- `Series.unique()`: distinct values in first-occurrence order. -/
def uniqueFirst : List String → List String
  | [] => []
  | x :: xs => x :: uniqueFirst (xs.filter fun y => y ≠ x)
termination_by l => l.length
decreasing_by
  simpa using Nat.lt_succ_of_le (List.length_filter_le _ xs)

/-- `_analyze_payment_methods`: statistics per distinct payment method. -/
def analyzePaymentMethods (data : List ATxn) : List (String × MethodStats) :=
  if data.isEmpty then []
  else (uniqueFirst (data.map (·.payment_method))).map fun m =>
    (m, methodStatsFor (data.filter fun t => t.payment_method == m))

/-- The trends dictionary of `_calculate_trends`: the empty dictionary is the
pair of an empty revenue trend and no trending method. -/
structure Trends where
  daily_revenue_trend : List (String × ℚ)
  trending_payment_method : Option String
deriving DecidableEq

/-- `Series.value_counts().index[0]`: a most frequent value. -/
def mostFrequent (l : List String) : Option String :=
  match uniqueFirst l with
  | [] => none
  | x :: xs => some ((x :: xs).foldl (fun best m => if l.count best < l.count m then m else best) x)

/-- `groupby('date')` keys in pandas order (sorted ascending). -/
def sortStrings (l : List String) : List String :=
  l.insertionSort (· ≤ ·)

/-- `_calculate_trends`: the trailing-week daily revenue of SUCCESS rows
(grouped by date) and the payment method with the highest raw count.
`weekAgo` is the ISO date string of `datetime.now().date() - 7 days`. -/
def calculateTrends (weekAgo : String) (data : List ATxn) : Trends :=
  if data.isEmpty then ⟨[], none⟩
  else
    let recentWeek := data.filter fun t => weekAgo ≤ t.date
    let drt :=
      if recentWeek.isEmpty then []
      else
        let successRows := recentWeek.filter fun t => t.status == "SUCCESS"
        (sortStrings (uniqueFirst (successRows.map (·.date)))).map fun dd =>
          (dd, ((successRows.filter fun t => t.date == dd).map (·.amount)).sum)
    ⟨drt, mostFrequent (data.map (·.payment_method))⟩

/-- The business-pulse result restricted to its analytic fields. -/
structure Pulse where
  today : DayMetrics
  yesterday : DayMetrics
  payment_methods : List (String × MethodStats)
  recent_trends : Trends
  total_records : ℕ
deriving DecidableEq

/-- `_empty_pulse_response`. -/
def emptyPulseResponse : Pulse :=
  ⟨⟨0, 0, 0, 0⟩, ⟨0, 0, 0, 0⟩, [], ⟨[], none⟩, 0⟩

/-- `df.tail(n)`: the last `n` rows. -/
def takeLast (n : ℕ) (l : List ATxn) : List ATxn :=
  l.drop (l.length - n)

/-- `_get_pulse_from_csv` on the windowed frame: today's and yesterday's day
metrics, per-method statistics and trends, with the demo fallback replacing
an empty "today" subset by the last 50 rows. -/
def getPulseFromCsv (today yesterday weekAgo : String) (df : List ATxn) : Pulse :=
  if df.isEmpty then emptyPulseResponse
  else
    let todayData := df.filter fun t => t.date == today
    let yesterdayData := df.filter fun t => t.date == yesterday
    let todayData := if todayData.isEmpty then takeLast 50 df else todayData
    ⟨calculateDayMetrics todayData, calculateDayMetrics yesterdayData,
      analyzePaymentMethods df, calculateTrends weekAgo df, df.length⟩

/-- A growth insight, carrying the data its message strings interpolate. -/
inductive GrowthInsight where
  | highValueFailures (failureRate : ℚ)
  | methodGap (bestMethod worstMethod : String) (bestRate worstRate : ℚ)
deriving DecidableEq

/-- The `type` string of an insight. -/
def GrowthInsight.itype : GrowthInsight → String
  | .highValueFailures _ => "HIGH_VALUE_FAILURES"
  | .methodGap _ _ _ _ => "PAYMENT_METHOD_OPTIMIZATION"

/-- `(x['status'] == 'SUCCESS').mean()` for one method's rows. -/
def successRate (rows : List ATxn) : ℚ :=
  ((rows.countP fun t => t.status == "SUCCESS") : ℚ) / (rows.length : ℚ)

/-- Descending order on the per-method success rates. -/
def rateGE (a b : String × ℚ) : Prop := b.2 ≤ a.2

instance : DecidableRel rateGE := fun a b => inferInstanceAs (Decidable (b.2 ≤ a.2))

instance : IsTotal (String × ℚ) rateGE := ⟨fun a b => le_total b.2 a.2⟩

instance : IsTrans (String × ℚ) rateGE := ⟨fun _ _ _ h h2 => le_trans h2 h⟩

/-- `groupby('payment_method').apply(success mean).sort_values(ascending=False)`:
the (method, rate) pairs over the sorted group keys, ordered by rate
descending. -/
def methodPerformance (df : List ATxn) : List (String × ℚ) :=
  ((sortStrings (uniqueFirst (df.map (·.payment_method)))).map fun m =>
    (m, successRate (df.filter fun t => t.payment_method == m))).insertionSort rateGE

/-- The high-value-failure rule of `get_growth_insights`: among transactions
with amount at least 5000, emit the insight when the non-success fraction is
strictly greater than 0.1. -/
def highValueRule (df : List ATxn) : List GrowthInsight :=
  let hv := df.filter fun t => 5000 ≤ t.amount
  if 0 < hv.length then
    let failureRate := ((hv.countP fun t => t.status ≠ "SUCCESS") : ℚ) / (hv.length : ℚ)
    if 1/10 < failureRate then [.highValueFailures failureRate] else []
  else []

/-- The payment-method-gap rule of `get_growth_insights`: with more than one
method present, emit the insight when the best and worst per-method success
rates differ by strictly more than 0.1. -/
def methodGapRule (df : List ATxn) : List GrowthInsight :=
  match methodPerformance df with
  | [] => []
  | [_] => []
  | best :: next :: rest =>
    let worst := (next :: rest).getLast (by simp)
    if 1/10 < best.2 - worst.2 then
      [.methodGap best.1 worst.1 best.2 worst.2]
    else []

/-- `get_growth_insights` on the windowed frame: the high-value-failure rule
followed by the payment-method-gap rule. -/
def getGrowthInsights (df : List ATxn) : List GrowthInsight :=
  if df.isEmpty then []
  else highValueRule df ++ methodGapRule df

/-- One retained row of the date pipeline: the candidate cell must parse and
must not be in the future; the resolved timestamp and its calendar-date
string are written onto the row. -/
def rowDate (env : Env) (get : Row → Cell) (r : Row) : Option Row :=
  match toDatetime env (get r) with
  | .time t =>
    if t ≤ env.now then
      some { r with created_at := .time t, date := .str (env.dateStr t) }
    else none
  | _ => none

/-- Every row of `l2` takes its amount from some row of `l1`. -/
def amountsFrom (l2 l1 : List Row) : Prop :=
  ∀ r ∈ l2, ∃ rr ∈ l1, r.amount = rr.amount

/-- `successRate` of the rows of one method, abbreviated. -/
def rateOf (df : List ATxn) (m : String) : ℚ :=
  successRate (df.filter fun t => t.payment_method == m)

/-!
## Concrete inputs for counterexamples and witnesses
-/

/-- An oracle environment with a small concrete parsing table. -/
def cexEnv : Env :=
  { parseNumStr := fun _ => none
    parseDateStr := fun s =>
      if s = "d1" then some 5
      else if s = "g1" then some 1
      else if s = "g2" then some 2
      else if s = "g3" then some 3
      else none
    parseDateNum := fun _ => none
    showNum := fun _ => "0.0"
    showTime := fun _ => "1970-01-01 00:00:00"
    dateStr := fun _ => "2024-01-01"
    now := 10 }

/-- A row with every cell missing. -/
def nanRow : Row :=
  ⟨.nan, .nan, .nan, .nan, .nan, .nan, .nan, .nan, .nan, .nan, .nan, .nan, .nan,
    .nan, .nan, .nan, .nan⟩

/-- No modelled transaction column present. -/
def noCols : Cols := emptyDF.cols

/-- Amount validity as the invariant claims it: a numeric value that is
positive and at most 10,000,000. -/
def amountInBounds (c : Cell) : Bool :=
  cellGT c 0 && cellLE c 10000000

/-- A valid single-row transactions frame whose amount is 2,000,000 and whose
minor-unit indicator column is present. -/
def paiseDF : DF :=
  { cols := { noCols with
      transaction_id := true
      amount := true
      convenience_fees_amt_in_paise := true
      merchant_display_name := true
      transaction_start_date_time := true
      txn_status_name := true
      payment_mode_name := true }
    rows := [{ nanRow with
      transaction_id := .str "T1"
      amount := .num 2000000
      convenience_fees_amt_in_paise := .num 1
      merchant_display_name := .str "M"
      transaction_start_date_time := .str "d1"
      txn_status_name := .str "Success"
      payment_mode_name := .str "upi" }] }

/-- The canonical output of one cleaning pass over `paiseDF`: the column
mapping has filled the canonical columns, the amount was unit-corrected to
20,000, the timestamp resolved, and status and payment method were
canonicalized. -/
def paiseOutDF : DF :=
  { cols := { noCols with
      transaction_id := true
      txn_id := true
      amount := true
      convenience_fees_amt_in_paise := true
      merchant_display_name := true
      merchant_name := true
      merchant_id := true
      transaction_start_date_time := true
      created_at := true
      date := true
      txn_status_name := true
      status := true
      payment_mode_name := true
      payment_method := true }
    rows := [{ nanRow with
      transaction_id := .str "T1"
      txn_id := .str "T1"
      amount := .num 20000
      convenience_fees_amt_in_paise := .num 1
      merchant_display_name := .str "M"
      merchant_name := .str "M"
      merchant_id := .str "CSV_MERCHANT_001"
      transaction_start_date_time := .str "d1"
      created_at := .time 5
      date := .str "2024-01-01"
      txn_status_name := .str "Success"
      status := .str "SUCCESS"
      payment_mode_name := .str "upi"
      payment_method := .str "UPI" }] }

/-- A settlements frame with a single negative amount (and only the `amount`
column present). -/
def negSettleDF : SDF :=
  { cols := { emptySDF.cols with amount := true }
    rows := [⟨.num (-5), .nan, .nan, .nan, .nan, .nan, .nan, .nan⟩] }

/-- A settlements frame whose amounts have median 30,000; the settlement
schema has no minor-unit indicator column at all. -/
def bigSettleDF : SDF :=
  { cols := { emptySDF.cols with amount := true }
    rows := [⟨.num 20000, .nan, .nan, .nan, .nan, .nan, .nan, .nan⟩,
      ⟨.num 30000, .nan, .nan, .nan, .nan, .nan, .nan, .nan⟩,
      ⟨.num 40000, .nan, .nan, .nan, .nan, .nan, .nan, .nan⟩] }

/-- A valid single-row transactions frame with no status column of either
name. -/
def noStatusDF : DF :=
  { cols := { noCols with
      transaction_id := true
      amount := true
      merchant_display_name := true
      transaction_start_date_time := true
      payment_mode_name := true }
    rows := [{ nanRow with
      transaction_id := .str "T1"
      amount := .num 100
      merchant_display_name := .str "M"
      transaction_start_date_time := .str "d1"
      payment_mode_name := .str "upi" }] }

/-- A three-row transactions frame whose first candidate date column
(`transaction_start_date_time`) parses for only one row while the second
candidate (`created_at`) parses for all three. -/
def minorityDateDF : DF :=
  { cols := { noCols with
      transaction_id := true
      amount := true
      merchant_display_name := true
      transaction_start_date_time := true
      created_at := true }
    rows := [{ nanRow with
        transaction_id := .str "T1"
        amount := .num 100
        merchant_display_name := .str "M"
        transaction_start_date_time := .str "d1"
        created_at := .str "g1" },
      { nanRow with
        transaction_id := .str "T2"
        amount := .num 200
        merchant_display_name := .str "M"
        transaction_start_date_time := .str "bad"
        created_at := .str "g2" },
      { nanRow with
        transaction_id := .str "T3"
        amount := .num 300
        merchant_display_name := .str "M"
        transaction_start_date_time := .str "bad"
        created_at := .str "g3" }] }

/-- The payment-method value the payment step computes from a raw
`payment_mode_name` cell: the synonym-table image, or the uppercased
original when unmapped. -/
def paymentCanon (env : Env) (c : Cell) : Cell :=
  if isNan (applyPaymentMap env c) then .str (cellUpperStr env c)
  else applyPaymentMap env c

/-- Column-presence invariants of cleaned output: every column-mapping
target exists when its source does, `payment_method` never exists without
`payment_mode_name` (otherwise the payment fill raises), every candidate
date column implies the resolved `created_at`, and `created_at` implies the
derived `date`. -/
def canonCols (c : Cols) : Bool :=
  (!c.transaction_id || c.txn_id) &&
  (!c.txn_completion_date_time || c.completed_at) &&
  (!c.merchant_display_name || (c.merchant_name && c.merchant_id)) &&
  (!c.txn_status_name || c.status) &&
  (!c.payment_mode_name || c.payment_method) &&
  (!c.payment_method || c.payment_mode_name) &&
  (!c.transaction_start_date_time || c.created_at) &&
  (!c.sale_txn_date_time || c.created_at) &&
  (!c.txn_completion_date_time || c.created_at) &&
  (!c.created_at || c.date)

/-- Per-row invariants of cleaned output, relative to the present columns. -/
def canonRow (env : Env) (c : Cols) (r : Row) : Bool :=
  (!c.transaction_id || !isNan r.transaction_id) &&
  (!c.merchant_display_name || !isNan r.merchant_display_name) &&
  (!c.transaction_start_date_time || !isNan r.transaction_start_date_time) &&
  (!c.amount || amountInBounds r.amount) &&
  (!c.created_at ||
    (match r.created_at with
     | .time t => decide (t ≤ env.now) && (r.date == Cell.str (env.dateStr t))
     | _ => false)) &&
  (!c.transaction_start_date_time ||
    (toDatetime env r.transaction_start_date_time == r.created_at)) &&
  (!c.txn_status_name || (!isNan r.txn_status_name &&
    (applyStatusMap env r.txn_status_name == r.status) && !isNan r.status)) &&
  (!(c.status && !c.txn_status_name) ||
    ((applyStatusMap env r.status == r.status) && !isNan r.status)) &&
  (!c.payment_mode_name || (!isNan r.payment_mode_name &&
    (paymentCanon env r.payment_mode_name == r.payment_method))) &&
  (!c.merchant_display_name || ((r.merchant_name == r.merchant_display_name) &&
    (r.merchant_id == Cell.str "CSV_MERCHANT_001")))

/-- No present column is mostly null over the rows. -/
def noSparse (d : DF) : Bool :=
  (!d.cols.transaction_id || !sparseB d.rows (·.transaction_id)) &&
  (!d.cols.txn_id || !sparseB d.rows (·.txn_id)) &&
  (!d.cols.amount || !sparseB d.rows (·.amount)) &&
  (!d.cols.convenience_fees_amt_in_paise ||
    !sparseB d.rows (·.convenience_fees_amt_in_paise)) &&
  (!d.cols.merchant_display_name || !sparseB d.rows (·.merchant_display_name)) &&
  (!d.cols.merchant_name || !sparseB d.rows (·.merchant_name)) &&
  (!d.cols.merchant_id || !sparseB d.rows (·.merchant_id)) &&
  (!d.cols.transaction_start_date_time ||
    !sparseB d.rows (·.transaction_start_date_time)) &&
  (!d.cols.sale_txn_date_time || !sparseB d.rows (·.sale_txn_date_time)) &&
  (!d.cols.txn_completion_date_time || !sparseB d.rows (·.txn_completion_date_time)) &&
  (!d.cols.completed_at || !sparseB d.rows (·.completed_at)) &&
  (!d.cols.created_at || !sparseB d.rows (·.created_at)) &&
  (!d.cols.date || !sparseB d.rows (·.date)) &&
  (!d.cols.txn_status_name || !sparseB d.rows (·.txn_status_name)) &&
  (!d.cols.status || !sparseB d.rows (·.status)) &&
  (!d.cols.payment_mode_name || !sparseB d.rows (·.payment_mode_name)) &&
  (!d.cols.payment_method || !sparseB d.rows (·.payment_method))

/-- The canonical-output invariant: an empty frame, or a frame whose columns
and rows satisfy the shape invariants and whose merchant name column exists. -/
def canonicalDF (env : Env) (d : DF) : Bool :=
  d.rows.isEmpty ||
  (canonCols d.cols && d.cols.merchant_name && d.rows.all (canonRow env d.cols))

/-- The effect of one more cleaning pass on a canonical frame: amounts are
divided by 100 again exactly when the indicator column is present and the
median amount still exceeds 10,000; otherwise nothing changes. -/
def paiseAdjust (_env : Env) (d : DF) : DF :=
  if d.cols.amount && d.cols.convenience_fees_amt_in_paise &&
      medianGT (d.rows.filterMap fun r => getNum r.amount) 10000 then
    { d with rows := d.rows.map fun r => { r with amount := divCell r.amount } }
  else d

/-- The time/date shape a canonical row's `created_at` satisfies. -/
def timeOk (env : Env) (r : Row) : Prop :=
  ∃ t : ℤ, r.created_at = Cell.time t ∧ t ≤ env.now ∧ r.date = Cell.str (env.dateStr t)

/-!
## Claim theorems
-/

/-- C1: for every row subset passed to the day-metrics computation, revenue is
the sum of `amount` over SUCCESS rows only, the transaction count is the total
row count regardless of status, the success rate is the SUCCESS fraction times
100 rounded to 2 decimals, the average amount is the mean over SUCCESS rows
only, and the empty subset yields all-zero fields with no division error. -/
theorem calculateDayMetrics_spec (data : List ATxn) :
    (calculateDayMetrics data).revenue
      = ((data.filter fun t => t.status == "SUCCESS").map (·.amount)).sum ∧
    (calculateDayMetrics data).transactions = data.length ∧
    (calculateDayMetrics data).success_rate
      = round2 (((data.filter fun t => t.status == "SUCCESS").length : ℚ)
          / (data.length : ℚ) * 100) ∧
    (calculateDayMetrics data).avg_amount
      = (if (data.filter fun t => t.status == "SUCCESS").isEmpty then 0
         else ((data.filter fun t => t.status == "SUCCESS").map (·.amount)).sum
           / ((data.filter fun t => t.status == "SUCCESS").length : ℚ)) ∧
    calculateDayMetrics ([] : List ATxn) = ⟨0, 0, 0, 0⟩ := by
  unfold calculateDayMetrics
  by_cases h : data.isEmpty
  · rw [List.isEmpty_iff] at h
    subst h
    refine ⟨by simp, by simp, ?_, by simp, by simp⟩
    simp only [List.filter_nil, List.length_nil, List.isEmpty_nil, if_true]
    norm_num [round2, roundHalfEven]
  · rw [Bool.not_eq_true] at h
    refine ⟨?_, by simp [h], by simp [h], by simp [h], by simp⟩
    by_cases hs : (data.filter fun t => t.status == "SUCCESS").isEmpty
    · rw [List.isEmpty_iff] at hs
      simp [h, hs]
    · simp [h, hs]

/-!
## General lemmas about the cleaning steps
-/

lemma list_map_eq_self {α : Type} {l : List α} {f : α → α} (h : ∀ a ∈ l, f a = a) :
    l.map f = l := by
  induction l with
  | nil => rfl
  | cons a t ih =>
    simp only [List.map_cons, h a (by simp)]
    rw [ih fun r hr => h r (by simp [hr])]

@[simp] lemma isNan_nan : isNan Cell.nan = true := rfl

@[simp] lemma isNan_str (s : String) : isNan (Cell.str s) = false := rfl

@[simp] lemma isNan_num (q : ℚ) : isNan (Cell.num q) = false := rfl

@[simp] lemma isNan_time (t : ℤ) : isNan (Cell.time t) = false := rfl

lemma statusMapping_of_nan (env : Env) :
    statusMapping (cellUpperStr env Cell.nan) = none :=
  (by decide : statusMapping "NAN" = none)

/-- The status pipeline (drop nulls, map the uppercased value, drop unmapped)
collapses to one `filterMap`: a row survives exactly when its uppercased
status is in the synonym table, and then carries the canonical token. -/
lemma status_pipeline_filterMap (env : Env) (rows : List Row) (get : Row → Cell) :
    (((rows.map fun r => { r with status := get r }).filter fun r => !isNan r.status).map
        (fun r => { r with status := applyStatusMap env r.status })).filter
      (fun r => !isNan r.status)
    = rows.filterMap fun r =>
        (statusMapping (cellUpperStr env (get r))).map fun c => { r with status := Cell.str c } := by
  induction rows with
  | nil => rfl
  | cons a t ih =>
    simp only [List.map_cons, List.filter_cons, List.filterMap_cons]
    by_cases hn : isNan (get a)
    · have hna : get a = Cell.nan := by cases h : get a <;> simp_all
      simp [hna, statusMapping_of_nan, ih]
    · cases hm : statusMapping (cellUpperStr env (get a)) with
      | none =>
        have hasm : applyStatusMap env (get a) = Cell.nan := by
          simp [applyStatusMap, hm]
        simp [hn, hasm, hm, ih]
      | some c =>
        have hasm : applyStatusMap env (get a) = Cell.str c := by
          simp [applyStatusMap, hm]
        simp [hn, hasm, hm, ih]

/-- The same collapse when the raw status column is the status column itself
(no preliminary copy). -/
lemma status_pipeline_filterMap_self (env : Env) (rows : List Row) :
    (((rows.filter fun r => !isNan r.status).map
        (fun r => { r with status := applyStatusMap env r.status })).filter
      (fun r => !isNan r.status))
    = rows.filterMap fun r =>
        (statusMapping (cellUpperStr env r.status)).map fun c => { r with status := Cell.str c } := by
  have h := status_pipeline_filterMap env rows (·.status)
  simpa using h

/-- Every value the status synonym table produces is one of the three
canonical tokens. -/
lemma statusMapping_canonical (s c : String) (h : statusMapping s = some c) :
    c = "SUCCESS" ∨ c = "FAILED" ∨ c = "PENDING" := by
  unfold statusMapping at h
  split at h
  · exact Or.inl (Option.some.inj h).symm
  · split at h
    · exact Or.inr (Or.inl (Option.some.inj h).symm)
    · split at h
      · exact Or.inr (Or.inr (Option.some.inj h).symm)
      · exact absurd h (by simp)

lemma toDatetime_shape (env : Env) (c : Cell) :
    toDatetime env c = .nan ∨ ∃ t, toDatetime env c = .time t := by
  cases c with
  | nan => exact Or.inl rfl
  | str s => cases h : env.parseDateStr s <;> simp [toDatetime, h]
  | num q => cases h : env.parseDateNum q <;> simp [toDatetime, h]
  | time t => exact Or.inr ⟨t, rfl⟩

lemma processDateCol_rows_aux (env : Env) (get : Row → Cell) (l : List Row) :
    ((((l.map fun r => { r with created_at := toDatetime env (get r) }).filter
          fun r => !isNan r.created_at).filter
        fun r => cellTimeLE r.created_at env.now).map
      fun r => { r with date := .str (env.dateStr (timeD r.created_at)) })
    = l.filterMap (rowDate env get) := by
  induction l with
  | nil => rfl
  | cons a t ih =>
    simp only [List.map_cons, List.filter_cons, List.filterMap_cons]
    rcases toDatetime_shape env (get a) with h | ⟨u, h⟩
    · have hrd : rowDate env get a = none := by simp only [rowDate, h]
      rw [h]
      simp only [hrd, isNan_nan, Bool.not_true, Bool.false_eq_true, if_false]
      exact ih
    · have hrd : rowDate env get a =
          if u ≤ env.now then
            some { a with created_at := .time u, date := .str (env.dateStr u) }
          else none := by
        simp only [rowDate, h]
      have hct : cellTimeLE (Cell.time u) env.now = decide (u ≤ env.now) := rfl
      have htd : timeD (Cell.time u) = u := rfl
      rw [h]
      by_cases hle : u ≤ env.now
      · simp only [hrd, isNan_time, Bool.not_false, if_true, hct, htd,
          eq_true hle, decide_True, List.map_cons, List.filter_cons]
        rw [ih]
      · simp only [hrd, isNan_time, Bool.not_false, if_true, hct,
          eq_false hle, decide_False, Bool.false_eq_true, if_false, List.map_cons,
          List.filter_cons]
        exact ih

/-- The body of one date-loop iteration collapses to a `filterMap` by
`rowDate`. -/
lemma processDateCol_rows (env : Env) (get : Row → Cell) (d : DF) :
    (processDateCol env get d).rows = d.rows.filterMap (rowDate env get) := by
  simpa [processDateCol] using processDateCol_rows_aux env get d.rows

/-!
## Counterexample and evaluation theorems
-/

/-- C2 counterexample: a settlement row with amount −5 is retained by
settlement cleaning, so it is false that every row retained after
normalization, in any category, has `0 < amount ≤ 10,000,000` — the
settlement pass never applies the positivity or outlier filters. -/
theorem settlement_amount_unbounded_cex :
    (cleanSettlementData cexEnv negSettleDF).rows.map (·.amount) = [Cell.num (-5)] ∧
    ¬ (∀ r ∈ (cleanSettlementData cexEnv negSettleDF).rows,
        amountInBounds r.amount = true) := by
  constructor
  · with_unfolding_all decide
  · with_unfolding_all decide

/-- C3 counterexample: settlement amounts with median 30,000 are divided by
100 although no minor-unit indicator column exists in the settlement frame,
so it is false that amounts are left unchanged whenever the indicator column
is absent. -/
theorem settlement_paise_without_indicator_cex :
    (cleanSettlementData cexEnv bigSettleDF).rows.map (·.amount)
      = [Cell.num 200, Cell.num 300, Cell.num 400] ∧
    (cleanSettlementData cexEnv bigSettleDF).rows.map (·.amount)
      ≠ bigSettleDF.rows.map (·.amount) := by
  constructor
  · with_unfolding_all decide
  · with_unfolding_all decide

/-- C4 evaluation: when every candidate encoding of the settlement file fails
to decode, the loader leaves the settlement frame unset (`None`) instead of
recording an empty frame, and `get_data_summary` then raises
(`None.empty`) — while with all three files absent the three loaded counts
are 0 with no error, as the transactions loader alone also recovers an
undecodable file to an empty frame. -/
theorem loader_undecodable_settlement_eval :
    loadSettlements cexEnv .undecodable = none ∧
    dataSummaryCounts (loadTransactions cexEnv .absent)
      (loadSettlements cexEnv .undecodable) (loadSupport .absent) = none ∧
    loadTransactions cexEnv .undecodable = emptyDF ∧
    dataSummaryCounts (loadTransactions cexEnv .absent)
      (loadSettlements cexEnv .absent) (loadSupport .absent) = some (0, 0, 0) := by
  refine ⟨rfl, rfl, rfl, rfl⟩

set_option maxRecDepth 2000 in
/-- Evaluation of the first cleaning pass over `paiseDF`: it yields the
canonical frame `paiseOutDF`, with the amount unit-corrected from 2,000,000
to 20,000. -/
lemma paiseDF_clean_eval : cleanTransactionData cexEnv paiseDF = some paiseOutDF := by
  have h1 : "Success".toUpper = "SUCCESS" := by with_unfolding_all decide
  have h2 : "upi".toUpper = "UPI" := by with_unfolding_all decide
  simp +decide only [cleanTransactionData, pruneStep, mapStep, criticalStep, amountStep,
    amountFiltered, dateStep, tryDateCol, processDateCol, statusStep, paymentStep,
    merchantStep, finalCheck, sparseB, isNan, toNumeric, toDatetime, cellUpperStr,
    getNum, cellGT, cellLE, cellTimeLE, divCell, timeD, medianOpt, medianGT,
    statusMapping, applyStatusMap, paymentMapping, applyPaymentMap, fillPayment,
    dropnaBy, cexEnv, paiseDF, paiseOutDF, nanRow, noCols, emptyDF, h1, h2,
    List.insertionSort, List.orderedInsert, List.filterMap, List.filter, List.map,
    List.countP, List.isEmpty, List.length, List.getD, Option.map, Option.bind]
  norm_num

set_option maxRecDepth 2000 in
/-- C5 counterexample: cleaning is not idempotent.  The first pass over
`paiseDF` yields the canonical frame `paiseOutDF` with its single amount
unit-corrected from 2,000,000 to 20,000; cleaning that output again sees the
indicator column still present and the median 20,000 > 10,000, and divides by
100 a second time, changing the amount to 200. -/
theorem cleanTransactionData_not_idempotent_cex :
    cleanTransactionData cexEnv paiseDF = some paiseOutDF ∧
    ((cleanTransactionData cexEnv paiseOutDF).map fun d => d.rows.map (·.amount))
      = some [Cell.num 200] ∧
    cleanTransactionData cexEnv paiseOutDF ≠ some paiseOutDF := by
  refine ⟨paiseDF_clean_eval, ?_, ?_⟩
  · with_unfolding_all decide
  · with_unfolding_all decide

set_option maxRecDepth 2000 in
/-- C9 counterexample: with the status column absent entirely, cleaning
retains the row but assigns no status at all — the status column stays
absent and no row is defaulted to SUCCESS. -/
theorem status_absent_not_defaulted_cex :
    ((cleanTransactionData cexEnv noStatusDF).map fun d =>
      (d.cols.status, d.rows.length, d.rows.all fun r => r.status == Cell.nan))
      = some (false, 1, true) := by
  with_unfolding_all decide

set_option maxRecDepth 2000 in
/-- C10 counterexample: the date loop commits to the first present candidate
column even though it parses for only a minority (1 of 3) of rows, dropping
the other rows, rather than moving on to the second candidate that parses
for all 3 rows. -/
theorem date_no_majority_cex :
    ((cleanTransactionData cexEnv minorityDateDF).map fun d => d.rows.length)
      = some 1 ∧
    ((cleanTransactionData cexEnv minorityDateDF).map fun d => d.rows.length)
      ≠ some 3 := by
  refine ⟨by with_unfolding_all decide, by with_unfolding_all decide⟩

/-- C9 (amended): status canonicalization uppercases each raw status and maps
it through the fixed synonym table onto {SUCCESS, FAILED, PENDING}; every row
whose value falls outside the table is dropped (the uniform strict policy);
and when the status column is absent entirely the step leaves the frame
unchanged — rows pass through with no status assigned rather than being
defaulted to SUCCESS. -/
theorem status_canonicalization_spec (env : Env) (d : DF) :
    (d.cols.txn_status_name = false → d.cols.status = false → statusStep env d = d) ∧
    (d.cols.txn_status_name = true →
      (statusStep env d).rows = d.rows.filterMap fun r =>
        (statusMapping (cellUpperStr env r.txn_status_name)).map
          fun c => { r with status := Cell.str c }) ∧
    (d.cols.txn_status_name = false → d.cols.status = true →
      (statusStep env d).rows = d.rows.filterMap fun r =>
        (statusMapping (cellUpperStr env r.status)).map
          fun c => { r with status := Cell.str c }) ∧
    ((d.cols.txn_status_name || d.cols.status) = true →
      ∀ r ∈ (statusStep env d).rows, ∃ c, r.status = Cell.str c ∧
        (c = "SUCCESS" ∨ c = "FAILED" ∨ c = "PENDING")) := by
  have h2 : d.cols.txn_status_name = true →
      (statusStep env d).rows = d.rows.filterMap fun r =>
        (statusMapping (cellUpperStr env r.txn_status_name)).map
          fun c => { r with status := Cell.str c } := by
    intro h1
    simp only [statusStep, h1, if_true]
    exact status_pipeline_filterMap env d.rows (·.txn_status_name)
  have h3 : d.cols.txn_status_name = false → d.cols.status = true →
      (statusStep env d).rows = d.rows.filterMap fun r =>
        (statusMapping (cellUpperStr env r.status)).map
          fun c => { r with status := Cell.str c } := by
    intro hf ht
    simp only [statusStep, hf, Bool.false_eq_true, if_false, ht, if_true]
    exact status_pipeline_filterMap_self env d.rows
  refine ⟨?_, h2, h3, ?_⟩
  · intro hf1 hf2
    simp [statusStep, hf1, hf2]
  · intro hcols r hr
    cases htx : d.cols.txn_status_name with
    | true =>
      rw [h2 htx] at hr
      simp only [List.mem_filterMap, Option.map_eq_some'] at hr
      obtain ⟨r0, _, c, hm, rfl⟩ := hr
      exact ⟨c, rfl, statusMapping_canonical _ _ hm⟩
    | false =>
      have hst : d.cols.status = true := by simpa [htx] using hcols
      rw [h3 htx hst] at hr
      simp only [List.mem_filterMap, Option.map_eq_some'] at hr
      obtain ⟨r0, _, c, hm, rfl⟩ := hr
      exact ⟨c, rfl, statusMapping_canonical _ _ hm⟩

/-- Witness for `status_canonicalization_spec` at a concrete frame whose raw
status column is present. -/
theorem status_canonicalization_spec_witness :
    (statusStep cexEnv paiseDF).rows
      = paiseDF.rows.filterMap fun r =>
          (statusMapping (cellUpperStr cexEnv r.txn_status_name)).map
            fun c => { r with status := Cell.str c } :=
  (status_canonicalization_spec cexEnv paiseDF).2.1 rfl

/-- C10 (amended): the date resolution commits to the first candidate column
present in the frame, regardless of what fraction of rows it parses: rows
whose cell in that column is unparseable are dropped, timestamps strictly
after the processing time are rejected, and the calendar-date string is
derived from the resolved timestamp of each retained row. -/
theorem timestamp_resolution_spec (env : Env) (d : DF)
    (h1 : d.cols.transaction_start_date_time = true)
    (h2 : d.rows.filterMap (rowDate env (·.transaction_start_date_time)) ≠ []) :
    (dateStep env d).rows
      = d.rows.filterMap (rowDate env (·.transaction_start_date_time)) ∧
    (dateStep env d).cols = { d.cols with created_at := true, date := true } ∧
    (∀ r ∈ (dateStep env d).rows, ∃ r0 ∈ d.rows, ∃ t,
      toDatetime env r0.transaction_start_date_time = Cell.time t ∧ t ≤ env.now ∧
      r = { r0 with created_at := Cell.time t, date := Cell.str (env.dateStr t) }) := by
  have hlen : 0 < (processDateCol env (·.transaction_start_date_time) d).rows.length := by
    rw [processDateCol_rows]
    exact List.length_pos.mpr h2
  have hstep : dateStep env d = processDateCol env (·.transaction_start_date_time) d := by
    unfold dateStep
    simp [tryDateCol, h1, decide_eq_true hlen]
  refine ⟨?_, ?_, ?_⟩
  · rw [hstep, processDateCol_rows]
  · rw [hstep]
    rfl
  · intro r hr
    rw [hstep, processDateCol_rows] at hr
    simp only [List.mem_filterMap] at hr
    obtain ⟨r0, hr0, hrd⟩ := hr
    rcases toDatetime_shape env r0.transaction_start_date_time with hnan | ⟨t, ht⟩
    · simp only [rowDate, hnan] at hrd
      exact Option.noConfusion hrd
    · simp only [rowDate, ht] at hrd
      by_cases hle : t ≤ env.now
      · rw [if_pos hle] at hrd
        exact ⟨r0, hr0, t, ht, hle, (Option.some.inj hrd).symm⟩
      · rw [if_neg hle] at hrd
        exact Option.noConfusion hrd

/-- Witness for `timestamp_resolution_spec` at the concrete minority-parse
frame. -/
theorem timestamp_resolution_spec_witness :
    (dateStep cexEnv minorityDateDF).rows
      = minorityDateDF.rows.filterMap (rowDate cexEnv (·.transaction_start_date_time)) :=
  (timestamp_resolution_spec cexEnv minorityDateDF rfl
    (by with_unfolding_all decide)).1

/-!
## Amount preservation through the later cleaning steps (for the amount
invariant)
-/

lemma amountsFrom_refl (l : List Row) : amountsFrom l l :=
  fun r hr => ⟨r, hr, rfl⟩

lemma amountsFrom_trans {l1 l2 l3 : List Row} (h32 : amountsFrom l3 l2)
    (h21 : amountsFrom l2 l1) : amountsFrom l3 l1 := by
  intro r hr
  obtain ⟨a, ha, he⟩ := h32 r hr
  obtain ⟨b, hb, he2⟩ := h21 a ha
  exact ⟨b, hb, he.trans he2⟩

lemma amountsFrom_filter (l : List Row) (p : Row → Bool) : amountsFrom (l.filter p) l :=
  fun r hr => ⟨r, (List.mem_filter.mp hr).1, rfl⟩

lemma amountsFrom_map (l : List Row) (f : Row → Row)
    (hf : ∀ r, (f r).amount = r.amount) : amountsFrom (l.map f) l := by
  intro r hr
  obtain ⟨x, hx, rfl⟩ := List.mem_map.mp hr
  exact ⟨x, hx, hf x⟩

lemma tryDateCol_amounts (env : Env) (p : DF → Bool) (g : Row → Cell) (st : DF × Bool) :
    amountsFrom (tryDateCol env p g st).1.rows st.1.rows := by
  unfold tryDateCol
  by_cases h2 : st.2
  · simp only [h2, if_true]
    exact amountsFrom_refl _
  · simp only [h2, Bool.false_eq_true, if_false]
    by_cases hp : p st.1
    · simp only [hp, if_true]
      rw [processDateCol_rows]
      intro r hr
      obtain ⟨r0, hr0, hrd⟩ := List.mem_filterMap.mp hr
      rcases toDatetime_shape env (g r0) with hnan | ⟨t, ht⟩
      · simp only [rowDate, hnan] at hrd
        exact Option.noConfusion hrd
      · simp only [rowDate, ht] at hrd
        by_cases hle : t ≤ env.now
        · rw [if_pos hle] at hrd
          exact ⟨r0, hr0, by rw [← Option.some.inj hrd]⟩
        · rw [if_neg hle] at hrd
          exact Option.noConfusion hrd
    · simp only [hp, Bool.false_eq_true, if_false]
      exact amountsFrom_refl _

lemma dateStep_amounts (env : Env) (d : DF) : amountsFrom (dateStep env d).rows d.rows := by
  unfold dateStep
  refine amountsFrom_trans (tryDateCol_amounts env _ _ _)
    (amountsFrom_trans (tryDateCol_amounts env _ _ _)
      (amountsFrom_trans (tryDateCol_amounts env _ _ _)
        (tryDateCol_amounts env _ _ (d, false))))

lemma statusStep_amounts (env : Env) (d : DF) : amountsFrom (statusStep env d).rows d.rows := by
  unfold statusStep
  by_cases h1 : d.cols.txn_status_name
  · simp only [h1, if_true]
    refine amountsFrom_trans (amountsFrom_filter _ _) (amountsFrom_trans
      (amountsFrom_map _ _ fun r => rfl) (amountsFrom_trans (amountsFrom_filter _ _)
        (amountsFrom_map _ _ fun r => rfl)))
  · simp only [h1, Bool.false_eq_true, if_false]
    by_cases h2 : d.cols.status
    · simp only [h2, if_true]
      refine amountsFrom_trans (amountsFrom_filter _ _) (amountsFrom_trans
        (amountsFrom_map _ _ fun r => rfl) (amountsFrom_filter _ _))
    · simp only [h2, Bool.false_eq_true, if_false]
      exact amountsFrom_refl _

lemma paymentStep_amounts (env : Env) (d d2 : DF) (h : paymentStep env d = some d2) :
    amountsFrom d2.rows d.rows := by
  unfold paymentStep at h
  by_cases h1 : d.cols.payment_mode_name
  · simp only [h1, if_true] at h
    obtain rfl := Option.some.inj h
    refine amountsFrom_trans (amountsFrom_map _ _ fun r => ?_) (amountsFrom_trans
      (amountsFrom_map _ _ fun r => rfl) (amountsFrom_trans (amountsFrom_filter _ _)
        (amountsFrom_map _ _ fun r => rfl)))
    unfold fillPayment
    by_cases hnan : isNan r.payment_method <;> simp [hnan]
  · simp only [h1, Bool.false_eq_true, if_false] at h
    by_cases h2 : d.cols.payment_method
    · simp only [h2, if_true] at h
      exact Option.noConfusion h
    · simp only [h2, Bool.false_eq_true, if_false] at h
      obtain rfl := Option.some.inj h
      exact amountsFrom_refl _

lemma merchantStep_amounts (d : DF) : amountsFrom (merchantStep d).rows d.rows := by
  unfold merchantStep
  by_cases h1 : d.cols.merchant_display_name
  · simp only [h1, if_true]
    exact amountsFrom_trans (amountsFrom_map _ _ fun r => rfl) (amountsFrom_filter _ _)
  · simp only [h1, Bool.false_eq_true, if_false]
    exact amountsFrom_refl _

lemma finalCheck_eq (d d2 : DF) (h : finalCheck d = some d2) : d2 = d := by
  unfold finalCheck at h
  by_cases hc : 0 < d.rows.length && !d.cols.merchant_name
  · rw [if_pos hc] at h
    exact Option.noConfusion h
  · rw [if_neg hc] at h
    exact (Option.some.inj h).symm

lemma amountStep_cols (env : Env) (d : DF) : (amountStep env d).cols = d.cols := by
  unfold amountStep
  by_cases h : d.cols.amount <;> simp [h]

lemma tryDateCol_cols_amount (env : Env) (p : DF → Bool) (g : Row → Cell)
    (st : DF × Bool) : (tryDateCol env p g st).1.cols.amount = st.1.cols.amount := by
  unfold tryDateCol
  by_cases h2 : st.2
  · simp [h2]
  · simp only [h2, Bool.false_eq_true, if_false]
    by_cases hp : p st.1
    · simp only [hp, if_true]
      rfl
    · simp [hp]

lemma dateStep_cols_amount (env : Env) (d : DF) :
    (dateStep env d).cols.amount = d.cols.amount := by
  unfold dateStep
  rw [tryDateCol_cols_amount, tryDateCol_cols_amount, tryDateCol_cols_amount,
    tryDateCol_cols_amount]

lemma statusStep_cols_amount (env : Env) (d : DF) :
    (statusStep env d).cols.amount = d.cols.amount := by
  unfold statusStep
  by_cases h1 : d.cols.txn_status_name
  · simp [h1]
  · simp only [h1, Bool.false_eq_true, if_false]
    by_cases h2 : d.cols.status <;> simp [h2]

lemma paymentStep_cols_amount (env : Env) (d d2 : DF) (h : paymentStep env d = some d2) :
    d2.cols.amount = d.cols.amount := by
  unfold paymentStep at h
  by_cases h1 : d.cols.payment_mode_name
  · simp only [h1, if_true] at h
    obtain rfl := Option.some.inj h
    rfl
  · simp only [h1, Bool.false_eq_true, if_false] at h
    by_cases h2 : d.cols.payment_method
    · simp only [h2, if_true] at h
      exact Option.noConfusion h
    · simp only [h2, Bool.false_eq_true, if_false] at h
      obtain rfl := Option.some.inj h
      rfl

lemma merchantStep_cols_amount (d : DF) :
    (merchantStep d).cols.amount = d.cols.amount := by
  unfold merchantStep
  by_cases h1 : d.cols.merchant_display_name <;> simp [h1]

lemma amountFiltered_bounds (env : Env) (rows : List Row) :
    ∀ r ∈ amountFiltered env rows, amountInBounds r.amount = true := by
  intro r hr
  unfold amountFiltered at hr
  have h1 := (List.mem_filter.mp hr).2
  have h2 := (List.mem_filter.mp (List.mem_filter.mp hr).1).2
  simp only [amountInBounds, h1, h2, Bool.and_self]

lemma amountInBounds_div (c : Cell) (h : amountInBounds c = true) :
    amountInBounds (divCell c) = true := by
  cases c with
  | num q =>
    simp only [amountInBounds, cellGT, cellLE, Bool.and_eq_true, decide_eq_true_eq] at h
    obtain ⟨hq, hle⟩ := h
    simp only [divCell, amountInBounds, cellGT, cellLE, Bool.and_eq_true, decide_eq_true_eq]
    constructor
    · positivity
    · rw [div_le_iff₀ (by norm_num : (0:ℚ) < 100)]
      linarith
  | nan => simp [amountInBounds, cellGT] at h
  | str s => simp [amountInBounds, cellGT] at h
  | time t => simp [amountInBounds, cellGT] at h

lemma amountStep_bounds (env : Env) (d : DF) (hA : d.cols.amount = true) :
    ∀ r ∈ (amountStep env d).rows, amountInBounds r.amount = true := by
  unfold amountStep
  simp only [hA, if_true]
  by_cases hdiv : d.cols.convenience_fees_amt_in_paise &&
      medianGT ((amountFiltered env d.rows).filterMap fun r => getNum r.amount) 10000
  · simp only [hdiv, if_true]
    intro r hr
    obtain ⟨x, hx, rfl⟩ := List.mem_map.mp hr
    exact amountInBounds_div _ (amountFiltered_bounds env d.rows x hx)
  · simp only [hdiv, Bool.false_eq_true, if_false]
    exact amountFiltered_bounds env d.rows

/-- C2 (amended): every transaction row retained after normalization carries a
numeric amount with `0 < amount ≤ 10,000,000` (the settlement pass applies no
such filters — see the counterexample). -/
theorem clean_transaction_amount_bounds (env : Env) (d out : DF)
    (h : cleanTransactionData env d = some out) (hA : out.cols.amount = true) :
    ∀ r ∈ out.rows, amountInBounds r.amount = true := by
  unfold cleanTransactionData at h
  by_cases he : d.rows.isEmpty
  · rw [if_pos he] at h
    obtain rfl := Option.some.inj h
    rw [List.isEmpty_iff] at he
    intro r hr
    rw [he] at hr
    exact absurd hr (List.not_mem_nil r)
  · rw [if_neg he] at h
    dsimp only [] at h
    cases hp : paymentStep env (statusStep env (dateStep env
        (amountStep env (criticalStep (mapStep (pruneStep d)))))) with
    | none =>
      rw [hp] at h
      exact Option.noConfusion h
    | some d7 =>
      rw [hp] at h
      dsimp only [] at h
      obtain rfl := finalCheck_eq _ _ h
      have hA7 : d7.cols.amount = true := by
        rw [← merchantStep_cols_amount d7]
        exact hA
      have hA3 : (criticalStep (mapStep (pruneStep d))).cols.amount = true := by
        rw [← amountStep_cols env (criticalStep (mapStep (pruneStep d))),
          ← dateStep_cols_amount env, ← statusStep_cols_amount env,
          ← paymentStep_cols_amount env _ _ hp]
        exact hA7
      intro r hr
      obtain ⟨r1, hr1, he1⟩ := merchantStep_amounts d7 r hr
      obtain ⟨r2, hr2, he2⟩ := paymentStep_amounts env _ _ hp r1 hr1
      obtain ⟨r3, hr3, he3⟩ := statusStep_amounts env _ r2 hr2
      obtain ⟨r4, hr4, he4⟩ := dateStep_amounts env _ r3 hr3
      have hb := amountStep_bounds env _ hA3 r4 hr4
      rw [he1, he2, he3, he4]
      exact hb

set_option maxRecDepth 2000 in
/-- Witness for `clean_transaction_amount_bounds` on a concrete cleaned
frame. -/
theorem clean_transaction_amount_bounds_witness :
    cleanTransactionData cexEnv paiseDF = some paiseOutDF ∧
    paiseOutDF.cols.amount = true ∧
    amountInBounds (paiseOutDF.rows.getD 0 nanRow).amount = true :=
  ⟨paiseDF_clean_eval, rfl,
   clean_transaction_amount_bounds cexEnv paiseDF paiseOutDF paiseDF_clean_eval rfl
     (paiseOutDF.rows.getD 0 nanRow) (List.mem_cons_self _ _)⟩

/-- C3 (amended): for transactions, every amount is divided by exactly 100
when the minor-unit indicator column is present and the median amount exceeds
10,000, and all amounts are left unchanged when the indicator column is
absent, whatever the median; for settlements, an amount column is divided by
100 whenever its own median exceeds 10,000, with no indicator-column check at
all. -/
theorem unit_correction_spec (env : Env) (d : DF) (sr : List SRow) :
    (d.cols.amount = true → d.cols.convenience_fees_amt_in_paise = true →
      medianGT ((amountFiltered env d.rows).filterMap fun r => getNum r.amount) 10000 = true →
      (amountStep env d).rows
        = (amountFiltered env d.rows).map fun r => { r with amount := divCell r.amount }) ∧
    (d.cols.amount = true → d.cols.convenience_fees_amt_in_paise = false →
      (amountStep env d).rows = amountFiltered env d.rows) ∧
    (medianGT (((sr.map fun r => { r with amount := toNumeric env r.amount }).filter
          fun r => !isNan r.amount).filterMap fun r => getNum r.amount) 10000 = true →
      settleAmountCol env (·.amount) (fun c r => { r with amount := c }) sr
        = ((sr.map fun r => { r with amount := toNumeric env r.amount }).filter
            fun r => !isNan r.amount).map fun r => { r with amount := divCell r.amount }) ∧
    (medianGT (((sr.map fun r => { r with amount := toNumeric env r.amount }).filter
          fun r => !isNan r.amount).filterMap fun r => getNum r.amount) 10000 = false →
      settleAmountCol env (·.amount) (fun c r => { r with amount := c }) sr
        = (sr.map fun r => { r with amount := toNumeric env r.amount }).filter
            fun r => !isNan r.amount) ∧
    (∀ q : ℚ, divCell (Cell.num q) = Cell.num (q / 100)) := by
  refine ⟨?_, ?_, ?_, ?_, fun q => rfl⟩
  · intro hA hC hM
    unfold amountStep
    simp only [hA, if_true, hC, hM, Bool.and_self, if_true]
  · intro hA hC
    unfold amountStep
    simp only [hA, if_true, hC, Bool.false_and, Bool.false_eq_true, if_false]
  · intro hM
    unfold settleAmountCol
    simp only [hM, if_true]
  · intro hM
    unfold settleAmountCol
    simp only [hM, Bool.false_eq_true, if_false]

/-- Witness for `unit_correction_spec`: the transaction division fires on
`paiseDF` (indicator present, median 2,000,000), and the settlement division
fires on `bigSettleDF` (median 30,000, no indicator column in the schema). -/
theorem unit_correction_spec_witness :
    (amountStep cexEnv paiseDF).rows
      = (amountFiltered cexEnv paiseDF.rows).map
          (fun r => { r with amount := divCell r.amount }) ∧
    settleAmountCol cexEnv (·.amount) (fun c r => { r with amount := c }) bigSettleDF.rows
      = ((bigSettleDF.rows.map fun r => { r with amount := toNumeric cexEnv r.amount }).filter
          fun r => !isNan r.amount).map fun r => { r with amount := divCell r.amount } := by
  constructor
  · exact (unit_correction_spec cexEnv paiseDF bigSettleDF.rows).1 rfl rfl
      (by with_unfolding_all decide)
  · exact (unit_correction_spec cexEnv paiseDF bigSettleDF.rows).2.2.1
      (by with_unfolding_all decide)

/-- C6: `businessPulse` on an empty dataset returns the well-defined all-zero
response — zero day summaries for today and yesterday, an empty
payment-method map and an empty trend map — and on a non-empty dataset whose
"today" subset is empty, the today summary is computed over the most recent
50 rows as the demo fallback instead of reporting all-zero. -/
theorem business_pulse_spec :
    (∀ today yesterday weekAgo : String,
      getPulseFromCsv today yesterday weekAgo [] = emptyPulseResponse) ∧
    emptyPulseResponse.today = ⟨0, 0, 0, 0⟩ ∧
    emptyPulseResponse.yesterday = ⟨0, 0, 0, 0⟩ ∧
    emptyPulseResponse.payment_methods = [] ∧
    emptyPulseResponse.recent_trends = ⟨[], none⟩ ∧
    (∀ (today yesterday weekAgo : String) (df : List ATxn), df ≠ [] →
      df.filter (fun t => t.date == today) = [] →
      (getPulseFromCsv today yesterday weekAgo df).today
        = calculateDayMetrics (takeLast 50 df)) := by
  refine ⟨fun _ _ _ => rfl, rfl, rfl, rfl, rfl, ?_⟩
  intro today yesterday weekAgo df hne hfil
  unfold getPulseFromCsv
  rw [if_neg (by simpa using hne)]
  dsimp only
  rw [hfil]
  rfl

/-- Witness for `business_pulse_spec` at a concrete one-row dataset with no
row dated "today". -/
theorem business_pulse_spec_witness :
    (getPulseFromCsv "2024-01-02" "2024-01-01" "2023-12-26"
        [⟨100, "SUCCESS", "UPI", "2024-01-01"⟩]).today
      = calculateDayMetrics (takeLast 50 [⟨100, "SUCCESS", "UPI", "2024-01-01"⟩]) :=
  business_pulse_spec.2.2.2.2.2 "2024-01-02" "2024-01-01" "2023-12-26"
    [⟨100, "SUCCESS", "UPI", "2024-01-01"⟩] (by simp) (by with_unfolding_all decide)

lemma methodGapRule_itype (df : List ATxn) :
    ∀ i ∈ methodGapRule df, i.itype = "PAYMENT_METHOD_OPTIMIZATION" := by
  intro i hi
  unfold methodGapRule at hi
  rcases hperf : methodPerformance df with _ | ⟨best, _ | ⟨next, rest⟩⟩ <;>
    rw [hperf] at hi <;> dsimp only [] at hi
  · exact absurd hi (List.not_mem_nil i)
  · exact absurd hi (List.not_mem_nil i)
  · by_cases hgap : 1/10 < best.2 - ((next :: rest).getLast (by simp)).2
    · rw [if_pos hgap] at hi
      rw [List.mem_singleton.mp hi]
      rfl
    · rw [if_neg hgap] at hi
      exact absurd hi (List.not_mem_nil i)

lemma highValueRule_itype (df : List ATxn) :
    ∀ i ∈ highValueRule df, i.itype = "HIGH_VALUE_FAILURES" := by
  intro i hi
  unfold highValueRule at hi
  by_cases h0 : 0 < (df.filter fun t => 5000 ≤ t.amount).length
  · rw [if_pos h0] at hi
    by_cases hr : 1/10 < (((df.filter fun t => 5000 ≤ t.amount).countP
        fun t => t.status ≠ "SUCCESS") : ℚ) / ((df.filter fun t => 5000 ≤ t.amount).length : ℚ)
    · rw [if_pos hr] at hi
      rw [List.mem_singleton.mp hi]
      rfl
    · rw [if_neg hr] at hi
      exact absurd hi (List.not_mem_nil i)
  · rw [if_neg h0] at hi
    exact absurd hi (List.not_mem_nil i)

/-- C7: the high-value-failure insight is emitted exactly when some
transaction has amount ≥ 5000 and the fraction of non-SUCCESS rows among
those transactions is strictly greater than 0.10 — a fraction of exactly 0.10
or below emits nothing. -/
theorem high_value_failure_boundary (df : List ATxn) :
    (∃ i ∈ getGrowthInsights df, i.itype = "HIGH_VALUE_FAILURES")
      ↔ (df.filter fun t => 5000 ≤ t.amount) ≠ [] ∧
        1/10 < (((df.filter fun t => 5000 ≤ t.amount).countP
            fun t => t.status ≠ "SUCCESS") : ℚ)
          / ((df.filter fun t => 5000 ≤ t.amount).length : ℚ) := by
  unfold getGrowthInsights
  by_cases he : df.isEmpty
  · rw [if_pos he]
    rw [List.isEmpty_iff] at he
    subst he
    simp
  · rw [if_neg he]
    constructor
    · rintro ⟨i, hi, hty⟩
      rcases List.mem_append.mp hi with hi1 | hi2
      · unfold highValueRule at hi1
        by_cases h0 : 0 < (df.filter fun t => 5000 ≤ t.amount).length
        · rw [if_pos h0] at hi1
          by_cases hr : 1/10 < (((df.filter fun t => 5000 ≤ t.amount).countP
              fun t => t.status ≠ "SUCCESS") : ℚ)
                / ((df.filter fun t => 5000 ≤ t.amount).length : ℚ)
          · exact ⟨List.length_pos.mp h0, hr⟩
          · rw [if_neg hr] at hi1
            exact absurd hi1 (List.not_mem_nil i)
        · rw [if_neg h0] at hi1
          exact absurd hi1 (List.not_mem_nil i)
      · have := methodGapRule_itype df i hi2
        rw [hty] at this
        exact absurd this (by decide)
    · rintro ⟨hne, hr⟩
      have h0 : 0 < (df.filter fun t => 5000 ≤ t.amount).length :=
        List.length_pos.mpr hne
      refine ⟨.highValueFailures ((((df.filter fun t => 5000 ≤ t.amount).countP
          fun t => t.status ≠ "SUCCESS") : ℚ)
            / ((df.filter fun t => 5000 ≤ t.amount).length : ℚ)), ?_, rfl⟩
      apply List.mem_append.mpr
      left
      unfold highValueRule
      rw [if_pos h0, if_pos hr]
      exact List.mem_singleton.mpr rfl

/-!
## The payment-method-gap rule
-/

lemma perm_methodPerformance (df : List ATxn) :
    (methodPerformance df).Perm
      ((sortStrings (uniqueFirst (df.map (·.payment_method)))).map
        fun m => (m, rateOf df m)) :=
  List.perm_insertionSort rateGE _

lemma sorted_methodPerformance (df : List ATxn) :
    List.Sorted rateGE (methodPerformance df) :=
  List.sorted_insertionSort rateGE _

lemma length_methodPerformance (df : List ATxn) :
    (methodPerformance df).length
      = (uniqueFirst (df.map (·.payment_method))).length := by
  rw [(perm_methodPerformance df).length_eq, List.length_map, sortStrings,
    (List.perm_insertionSort _ _).length_eq]

lemma mem_methodPerformance {df : List ATxn} {x : String × ℚ} :
    x ∈ methodPerformance df
      ↔ ∃ m ∈ uniqueFirst (df.map (·.payment_method)), x = (m, rateOf df m) := by
  rw [(perm_methodPerformance df).mem_iff, List.mem_map]
  unfold sortStrings
  constructor
  · rintro ⟨m, hm, rfl⟩
    exact ⟨m, (List.perm_insertionSort _ _).mem_iff.mp hm, rfl⟩
  · rintro ⟨m, hm, rfl⟩
    exact ⟨m, (List.perm_insertionSort _ _).mem_iff.mpr hm, rfl⟩

lemma sorted_head_bound {x : String × ℚ} {l : List (String × ℚ)}
    (hs : List.Sorted rateGE (x :: l)) : ∀ y ∈ x :: l, y.2 ≤ x.2 := by
  intro y hy
  rcases List.mem_cons.mp hy with rfl | hy2
  · exact le_refl _
  · exact (List.sorted_cons.mp hs).1 y hy2

lemma sorted_getLast_bound {l : List (String × ℚ)} (hs : List.Sorted rateGE l)
    (hne : l ≠ []) : ∀ y ∈ l, (l.getLast hne).2 ≤ y.2 := by
  induction l with
  | nil => exact absurd rfl hne
  | cons a t ih =>
    intro y hy
    cases t with
    | nil =>
      rcases List.mem_singleton.mp hy with rfl
      exact le_refl _
    | cons b t2 =>
      have hne2 : b :: t2 ≠ [] := by simp
      have hlast : (a :: b :: t2).getLast hne = (b :: t2).getLast hne2 :=
        List.getLast_cons hne2
      rcases List.mem_cons.mp hy with rfl | hy2
      · have hmem : (b :: t2).getLast hne2 ∈ b :: t2 := List.getLast_mem hne2
        have := (List.sorted_cons.mp hs).1 _ hmem
        rw [hlast]
        exact this
      · rw [hlast]
        exact ih (List.sorted_cons.mp hs).2 hne2 y hy2

/-- C8: the payment-method-gap insight is emitted exactly when at least two
distinct payment methods are present and the best and worst per-method
success rates differ by strictly more than 0.10; when emitted, the insight
names a best method attaining the maximal success rate and a worst method
attaining the minimal one, with their rates, and the recommendation promotes
the named best method. -/
theorem payment_method_gap_spec (df : List ATxn) :
    ((∃ i ∈ getGrowthInsights df, i.itype = "PAYMENT_METHOD_OPTIMIZATION")
      ↔ 2 ≤ (uniqueFirst (df.map (·.payment_method))).length ∧
        ∃ b w, b ∈ uniqueFirst (df.map (·.payment_method)) ∧
          w ∈ uniqueFirst (df.map (·.payment_method)) ∧
          (∀ m ∈ uniqueFirst (df.map (·.payment_method)), rateOf df m ≤ rateOf df b) ∧
          (∀ m ∈ uniqueFirst (df.map (·.payment_method)), rateOf df w ≤ rateOf df m) ∧
          1/10 < rateOf df b - rateOf df w) ∧
    (∀ b w bq wq, GrowthInsight.methodGap b w bq wq ∈ getGrowthInsights df →
      b ∈ uniqueFirst (df.map (·.payment_method)) ∧
      w ∈ uniqueFirst (df.map (·.payment_method)) ∧
      bq = rateOf df b ∧ wq = rateOf df w ∧
      (∀ m ∈ uniqueFirst (df.map (·.payment_method)),
        rateOf df m ≤ bq ∧ wq ≤ rateOf df m) ∧
      1/10 < bq - wq) := by
  by_cases he : df.isEmpty
  · rw [List.isEmpty_iff] at he
    subst he
    constructor
    · simp [getGrowthInsights, uniqueFirst]
    · intro b w bq wq hmem
      simp [getGrowthInsights] at hmem
  · have hins : getGrowthInsights df = highValueRule df ++ methodGapRule df := by
      unfold getGrowthInsights
      rw [if_neg he]
    -- the gap rule's emission analysis, shared by both parts
    have key : ∀ b w bq wq, GrowthInsight.methodGap b w bq wq ∈ methodGapRule df →
        b ∈ uniqueFirst (df.map (·.payment_method)) ∧
        w ∈ uniqueFirst (df.map (·.payment_method)) ∧
        bq = rateOf df b ∧ wq = rateOf df w ∧
        (∀ m ∈ uniqueFirst (df.map (·.payment_method)),
          rateOf df m ≤ bq ∧ wq ≤ rateOf df m) ∧
        1/10 < bq - wq := by
      intro b w bq wq hmem
      unfold methodGapRule at hmem
      rcases hperf : methodPerformance df with _ | ⟨best, _ | ⟨next, rest⟩⟩ <;>
        rw [hperf] at hmem <;> dsimp only [] at hmem
      · exact absurd hmem (List.not_mem_nil _)
      · exact absurd hmem (List.not_mem_nil _)
      · have hne2 : next :: rest ≠ [] := by simp
        by_cases hgap : 1/10 < best.2 - ((next :: rest).getLast (by simp)).2
        · rw [if_pos hgap] at hmem
          obtain ⟨h1, h2, h3, h4⟩ := GrowthInsight.methodGap.inj (List.mem_singleton.mp hmem)
          subst h1; subst h2; subst h3; subst h4
          set worst := (next :: rest).getLast hne2 with hworst
          have hsorted : List.Sorted rateGE (best :: next :: rest) := by
            rw [← hperf]; exact sorted_methodPerformance df
          have hbestmem : best ∈ methodPerformance df := by
            rw [hperf]; exact List.mem_cons_self best _
          have hworstmem : worst ∈ methodPerformance df := by
            rw [hperf]
            exact List.mem_cons_of_mem best (List.getLast_mem hne2)
          obtain ⟨mb, hmb, hbeq⟩ := mem_methodPerformance.mp hbestmem
          obtain ⟨mw, hmw, hweq⟩ := mem_methodPerformance.mp hworstmem
          have hb1 : best.1 = mb := by rw [hbeq]
          have hb2 : best.2 = rateOf df mb := by rw [hbeq]
          have hw1 : worst.1 = mw := by rw [hweq]
          have hw2 : worst.2 = rateOf df mw := by rw [hweq]
          have hub : ∀ m ∈ uniqueFirst (df.map (·.payment_method)),
              rateOf df m ≤ best.2 := by
            intro m hm
            have : (m, rateOf df m) ∈ methodPerformance df :=
              mem_methodPerformance.mpr ⟨m, hm, rfl⟩
            rw [hperf] at this
            exact sorted_head_bound hsorted _ this
          have hlb : ∀ m ∈ uniqueFirst (df.map (·.payment_method)),
              worst.2 ≤ rateOf df m := by
            intro m hm
            have hmm : (m, rateOf df m) ∈ methodPerformance df :=
              mem_methodPerformance.mpr ⟨m, hm, rfl⟩
            rw [hperf] at hmm
            have := sorted_getLast_bound hsorted (by simp) _ hmm
            rwa [List.getLast_cons hne2] at this
          refine ⟨hb1 ▸ hmb, hw1 ▸ hmw, ?_, ?_, ?_, hgap⟩
          · rw [hb2, hb1]
          · rw [hw2, hw1]
          · intro m hm
            exact ⟨hub m hm, hlb m hm⟩
        · rw [if_neg hgap] at hmem
          exact absurd hmem (List.not_mem_nil _)
    rw [hins]
    constructor
    · constructor
      · rintro ⟨i, hi, hty⟩
        rcases List.mem_append.mp hi with hi1 | hi2
        · have := highValueRule_itype df i hi1
          rw [hty] at this
          exact absurd this (by decide)
        · rcases i with q | ⟨b, w, bq, wq⟩
          · have hpm := methodGapRule_itype df _ hi2
            rw [show (GrowthInsight.highValueFailures q).itype
              = "HIGH_VALUE_FAILURES" from rfl] at hpm
            exact absurd hpm (by decide)
          · obtain ⟨hbm, hwm, hbq, hwq, hbounds, hgap⟩ := key b w bq wq hi2
            have hlen : 2 ≤ (uniqueFirst (df.map (·.payment_method))).length := by
              rw [← length_methodPerformance]
              unfold methodGapRule at hi2
              rcases hperf : methodPerformance df with _ | ⟨best, _ | ⟨next, rest⟩⟩ <;>
                rw [hperf] at hi2 <;> dsimp only [] at hi2
              · exact absurd hi2 (List.not_mem_nil _)
              · exact absurd hi2 (List.not_mem_nil _)
              · simp
            exact ⟨hlen, b, w, hbm, hwm,
              fun m hm => hbq ▸ (hbounds m hm).1,
              fun m hm => hwq ▸ (hbounds m hm).2, hbq ▸ hwq ▸ hgap⟩
      · rintro ⟨hlen, b, w, hbm, hwm, hub, hlb, hgap⟩
        have hlen2 : 2 ≤ (methodPerformance df).length := by
          rw [length_methodPerformance]; exact hlen
        rcases hperf : methodPerformance df with _ | ⟨best, _ | ⟨next, rest⟩⟩
        · rw [hperf] at hlen2; simp at hlen2
        · rw [hperf] at hlen2; simp at hlen2
        · have hne2 : next :: rest ≠ [] := by simp
          have hsorted : List.Sorted rateGE (best :: next :: rest) := by
            rw [← hperf]; exact sorted_methodPerformance df
          set worst := (next :: rest).getLast hne2 with hworst
          -- the head dominates the rate of b, and the last is below the rate of w
          have hbb : (b, rateOf df b) ∈ best :: next :: rest := by
            rw [← hperf]; exact mem_methodPerformance.mpr ⟨b, hbm, rfl⟩
          have hww : (w, rateOf df w) ∈ best :: next :: rest := by
            rw [← hperf]; exact mem_methodPerformance.mpr ⟨w, hwm, rfl⟩
          have h1 : rateOf df b ≤ best.2 := sorted_head_bound hsorted _ hbb
          have h2 : worst.2 ≤ rateOf df w := by
            have := sorted_getLast_bound hsorted (by simp) _ hww
            rwa [List.getLast_cons hne2] at this
          have hgap2 : 1/10 < best.2 - worst.2 := by linarith
          refine ⟨.methodGap best.1 worst.1 best.2 worst.2, ?_, rfl⟩
          apply List.mem_append.mpr
          right
          unfold methodGapRule
          rw [hperf]
          dsimp only []
          rw [if_pos hgap2]
          exact List.mem_singleton.mpr rfl
    · intro b w bq wq hmem
      rcases List.mem_append.mp hmem with hi1 | hi2
      · have hpm := highValueRule_itype df _ hi1
        rw [show (GrowthInsight.methodGap b w bq wq).itype
          = "PAYMENT_METHOD_OPTIMIZATION" from rfl] at hpm
        exact absurd hpm (by decide)
      · exact key b w bq wq hi2

/-!
## Re-cleaning canonical output (idempotence analysis)

`canonRow`/`canonCols`/`canonicalDF` state the shape invariants that
`_clean_transaction_data` establishes on its output: critical cells non-null,
amounts validated, the resolved timestamp consistent with the raw date
column, status and payment method equal to what re-canonicalizing their raw
columns yields, and the column-mapping targets present.  `noSparse` states
that no retained column has become mostly-null over the retained rows (so
the sparse-column pruning of a second pass drops nothing).
-/

lemma band_eq_left {a b : Bool} (h : (!a || b) = true) : (a && b) = a := by
  revert h
  cases a <;> cases b <;> decide

lemma band_not_eq_false {a b : Bool} (h : (!a || b) = true) : (a && !b) = false := by
  revert h
  cases a <;> cases b <;> decide

lemma pruneStep_id (d : DF) (hns : noSparse d = true) : pruneStep d = d := by
  unfold noSparse at hns
  simp only [Bool.and_eq_true] at hns
  obtain ⟨⟨⟨⟨⟨⟨⟨⟨⟨⟨⟨⟨⟨⟨⟨⟨h1, h2⟩, h3⟩, h4⟩, h5⟩, h6⟩, h7⟩, h8⟩, h9⟩, h10⟩,
    h11⟩, h12⟩, h13⟩, h14⟩, h15⟩, h16⟩, h17⟩ := hns
  unfold pruneStep
  rw [band_eq_left h1, band_eq_left h2, band_eq_left h3, band_eq_left h4,
    band_eq_left h5, band_eq_left h6, band_eq_left h7, band_eq_left h8,
    band_eq_left h9, band_eq_left h10, band_eq_left h11, band_eq_left h12,
    band_eq_left h13, band_eq_left h14, band_eq_left h15, band_eq_left h16,
    band_eq_left h17]

lemma mapStep_id (d : DF) (hcc : canonCols d.cols = true) : mapStep d = d := by
  unfold canonCols at hcc
  simp only [Bool.and_eq_true] at hcc
  obtain ⟨⟨⟨⟨⟨⟨⟨⟨⟨c1, c2⟩, c3⟩, c4⟩, c5⟩, c6⟩, c7⟩, c8⟩, c9⟩, c10⟩ := hcc
  have c3a : (!d.cols.merchant_display_name || d.cols.merchant_name) = true := by
    revert c3
    cases d.cols.merchant_display_name <;> cases d.cols.merchant_name <;>
      cases d.cols.merchant_id <;> decide
  unfold mapStep
  simp only [band_not_eq_false c1, band_not_eq_false c3a, band_not_eq_false c4,
    band_not_eq_false c5, band_not_eq_false c7, band_not_eq_false c2,
    Bool.false_eq_true, if_false]

lemma amountInBounds_num {c : Cell} (h : amountInBounds c = true) :
    ∃ q : ℚ, c = Cell.num q := by
  cases c with
  | num q => exact ⟨q, rfl⟩
  | nan => simp [amountInBounds, cellGT] at h
  | str s => simp [amountInBounds, cellGT] at h
  | time t => simp [amountInBounds, cellGT] at h

lemma amountInBounds_parts {c : Cell} (h : amountInBounds c = true) :
    cellGT c 0 = true ∧ cellLE c 10000000 = true ∧ isNan c = false := by
  obtain ⟨q, rfl⟩ := amountInBounds_num h
  simp only [amountInBounds, Bool.and_eq_true] at h
  exact ⟨h.1, h.2, rfl⟩

lemma list_filterMap_eq_self {α : Type} {l : List α} {f : α → Option α}
    (h : ∀ a ∈ l, f a = some a) : l.filterMap f = l := by
  induction l with
  | nil => rfl
  | cons a t ih =>
    rw [List.filterMap_cons, h a (by simp)]
    rw [ih fun x hx => h x (by simp [hx])]

lemma dropnaBranch_id {d : DF} {get : Row → Cell} {flag : Bool}
    (h : flag = true → ∀ r ∈ d.rows, (!isNan (get r)) = true) :
    (if flag = true then { d with rows := dropnaBy d.rows get } else d) = d := by
  by_cases hf : flag = true
  · rw [if_pos hf]
    unfold dropnaBy
    rw [List.filter_eq_self.mpr (h hf)]
  · rw [if_neg hf]

lemma criticalStep_id (d : DF)
    (h1 : d.cols.transaction_id = true → ∀ r ∈ d.rows, (!isNan r.transaction_id) = true)
    (h2 : d.cols.amount = true → ∀ r ∈ d.rows, (!isNan r.amount) = true)
    (h3 : d.cols.merchant_display_name = true →
      ∀ r ∈ d.rows, (!isNan r.merchant_display_name) = true)
    (h4 : d.cols.transaction_start_date_time = true →
      ∀ r ∈ d.rows, (!isNan r.transaction_start_date_time) = true) :
    criticalStep d = d := by
  unfold criticalStep
  dsimp only []
  rw [dropnaBranch_id h1]
  rw [dropnaBranch_id h2]
  rw [dropnaBranch_id h3]
  rw [dropnaBranch_id h4]

lemma amountFiltered_id (env : Env) (rows : List Row)
    (hall : ∀ r ∈ rows, amountInBounds r.amount = true) :
    amountFiltered env rows = rows := by
  unfold amountFiltered
  have hmap : (rows.map fun r => { r with amount := toNumeric env r.amount }) = rows := by
    apply list_map_eq_self
    intro r hr
    obtain ⟨q, hq⟩ := amountInBounds_num (hall r hr)
    rw [hq]
    show ({ r with amount := Cell.num q } : Row) = r
    rw [← hq]
  rw [hmap]
  have hf1 : (rows.filter fun r => !isNan r.amount) = rows :=
    List.filter_eq_self.mpr fun r hr => by
      simp [(amountInBounds_parts (hall r hr)).2.2]
  have hf2 : (rows.filter fun r => cellGT r.amount 0) = rows :=
    List.filter_eq_self.mpr fun r hr => (amountInBounds_parts (hall r hr)).1
  have hf3 : (rows.filter fun r => cellLE r.amount 10000000) = rows :=
    List.filter_eq_self.mpr fun r hr => (amountInBounds_parts (hall r hr)).2.1
  rw [hf1, hf2, hf3]

lemma amountStep_canon (env : Env) (d : DF)
    (hab : d.cols.amount = true → ∀ r ∈ d.rows, amountInBounds r.amount = true) :
    amountStep env d = paiseAdjust env d := by
  unfold amountStep paiseAdjust
  by_cases hA : d.cols.amount = true
  · rw [amountFiltered_id env d.rows (hab hA)]
    simp only [hA, if_true, Bool.true_and]
    by_cases hcond : (d.cols.convenience_fees_amt_in_paise &&
        medianGT (d.rows.filterMap fun r => getNum r.amount) 10000) = true
    · simp only [hcond, if_true]
    · simp only [hcond, Bool.false_eq_true, if_false]
  · have hA2 : d.cols.amount = false := by
      revert hA
      cases d.cols.amount <;> simp
    simp only [hA2, Bool.false_eq_true, if_false, Bool.false_and]

lemma cols_set_cd (c : Cols) (h1 : c.created_at = true) (h2 : c.date = true) :
    ({ c with created_at := true, date := true } : Cols) = c := by
  obtain ⟨f1, f2, f3, f4, f5, f6, f7, f8, f9, f10, f11, f12, f13, f14, f15, f16, f17⟩ := c
  simp_all

lemma cols_set_status (c : Cols) (h : c.status = true) :
    ({ c with status := true } : Cols) = c := by
  obtain ⟨f1, f2, f3, f4, f5, f6, f7, f8, f9, f10, f11, f12, f13, f14, f15, f16, f17⟩ := c
  simp_all

lemma cols_set_pm (c : Cols) (h : c.payment_method = true) :
    ({ c with payment_method := true } : Cols) = c := by
  obtain ⟨f1, f2, f3, f4, f5, f6, f7, f8, f9, f10, f11, f12, f13, f14, f15, f16, f17⟩ := c
  simp_all

lemma cols_set_merchant (c : Cols) (h1 : c.merchant_name = true)
    (h2 : c.merchant_id = true) :
    ({ c with merchant_name := true, merchant_id := true } : Cols) = c := by
  obtain ⟨f1, f2, f3, f4, f5, f6, f7, f8, f9, f10, f11, f12, f13, f14, f15, f16, f17⟩ := c
  simp_all

lemma processDateCol_id (env : Env) (get : Row → Cell) (d : DF)
    (hcd : d.cols.created_at = true) (hdd : d.cols.date = true)
    (hget : ∀ r ∈ d.rows, toDatetime env (get r) = r.created_at)
    (hrow : ∀ r ∈ d.rows, timeOk env r) :
    processDateCol env get d = d := by
  unfold processDateCol
  dsimp only []
  have hmap1 : (d.rows.map fun r => { r with created_at := toDatetime env (get r) })
      = d.rows :=
    list_map_eq_self fun r hr => by rw [hget r hr]
  rw [hmap1]
  have hf1 : (d.rows.filter fun r => !isNan r.created_at) = d.rows :=
    List.filter_eq_self.mpr fun r hr => by
      obtain ⟨t, ht, _, _⟩ := hrow r hr
      simp [ht]
  have hf2 : (d.rows.filter fun r => cellTimeLE r.created_at env.now) = d.rows :=
    List.filter_eq_self.mpr fun r hr => by
      obtain ⟨t, ht, hle, _⟩ := hrow r hr
      simp [ht, cellTimeLE, hle]
  have hmap2 : (d.rows.map fun r =>
      { r with date := .str (env.dateStr (timeD r.created_at)) }) = d.rows :=
    list_map_eq_self fun r hr => by
      obtain ⟨t, ht, _, hdate⟩ := hrow r hr
      have hx : Cell.str (env.dateStr (timeD r.created_at)) = r.date := by
        rw [ht]
        exact hdate.symm
      rw [hx]
  rw [hf1, hf2, hmap2]
  show DF.mk ({ d.cols with created_at := true, date := true }) d.rows = d
  rw [cols_set_cd d.cols hcd hdd]

lemma tryDateCol_skip (env : Env) (p : DF → Bool) (g : Row → Cell) (d : DF) :
    tryDateCol env p g (d, true) = (d, true) := by
  unfold tryDateCol
  simp

lemma timeOk_toDatetime {env : Env} {r : Row} (h : timeOk env r) :
    toDatetime env r.created_at = r.created_at := by
  obtain ⟨t, ht, _, _⟩ := h
  rw [ht]
  rfl

lemma dateStep_canon (env : Env) (d : DF) (hne : d.rows ≠ [])
    (i1 : (!d.cols.transaction_start_date_time || d.cols.created_at) = true)
    (i2 : (!d.cols.sale_txn_date_time || d.cols.created_at) = true)
    (i3 : (!d.cols.txn_completion_date_time || d.cols.created_at) = true)
    (i4 : (!d.cols.created_at || d.cols.date) = true)
    (hget1 : d.cols.transaction_start_date_time = true →
      ∀ r ∈ d.rows, toDatetime env r.transaction_start_date_time = r.created_at)
    (hca : d.cols.created_at = true → ∀ r ∈ d.rows, timeOk env r) :
    dateStep env d = d := by
  have hlen : decide (0 < d.rows.length) = true :=
    decide_eq_true (List.length_pos.mpr hne)
  unfold dateStep
  dsimp only []
  by_cases h1 : d.cols.transaction_start_date_time = true
  · have hcd : d.cols.created_at = true := by
      revert i1
      rw [h1]
      cases d.cols.created_at <;> decide
    have hdd : d.cols.date = true := by
      revert i4
      rw [hcd]
      cases d.cols.date <;> decide
    have hpd : processDateCol env (·.transaction_start_date_time) d = d :=
      processDateCol_id env _ d hcd hdd (hget1 h1) (hca hcd)
    have ht1 : tryDateCol env (·.cols.transaction_start_date_time)
        (·.transaction_start_date_time) (d, false) = (d, true) := by
      unfold tryDateCol
      simp only [h1, Bool.false_eq_true, if_false, if_true, hpd, hlen]
    rw [ht1, tryDateCol_skip, tryDateCol_skip, tryDateCol_skip]
  · by_cases h2 : d.cols.created_at = true
    · have hdd : d.cols.date = true := by
        revert i4
        rw [h2]
        cases d.cols.date <;> decide
      have hpd : processDateCol env (·.created_at) d = d :=
        processDateCol_id env _ d h2 hdd
          (fun r hr => timeOk_toDatetime (hca h2 r hr)) (hca h2)
      have ht1 : tryDateCol env (·.cols.transaction_start_date_time)
          (·.transaction_start_date_time) (d, false) = (d, false) := by
        unfold tryDateCol
        simp [h1]
      have ht2 : tryDateCol env (·.cols.created_at) (·.created_at) (d, false)
          = (d, true) := by
        unfold tryDateCol
        simp only [h2, Bool.false_eq_true, if_false, if_true, hpd, hlen]
      rw [ht1, ht2, tryDateCol_skip, tryDateCol_skip]
    · have h3 : d.cols.sale_txn_date_time = false := by
        revert i2
        cases hsale : d.cols.sale_txn_date_time
        · intro _; rfl
        · rw [show d.cols.created_at = false by
            revert h2; cases d.cols.created_at <;> simp]
          decide
      have h4 : d.cols.txn_completion_date_time = false := by
        revert i3
        cases hcompl : d.cols.txn_completion_date_time
        · intro _; rfl
        · rw [show d.cols.created_at = false by
            revert h2; cases d.cols.created_at <;> simp]
          decide
      have h2f : d.cols.created_at = false := by
        revert h2
        cases d.cols.created_at <;> simp
      have hskipf : ∀ (p : DF → Bool) (g : Row → Cell), p d = false →
          tryDateCol env p g (d, false) = (d, false) := by
        intro p g hp
        unfold tryDateCol
        simp [hp]
      rw [hskipf _ _ (by simpa using h1), hskipf _ _ h2f, hskipf _ _ h3, hskipf _ _ h4]

lemma statusStep_canon (env : Env) (d : DF)
    (hs1 : d.cols.txn_status_name = true → d.cols.status = true)
    (hr1 : d.cols.txn_status_name = true → ∀ r ∈ d.rows,
      applyStatusMap env r.txn_status_name = r.status ∧ isNan r.status = false)
    (hr2 : d.cols.txn_status_name = false → d.cols.status = true → ∀ r ∈ d.rows,
      applyStatusMap env r.status = r.status ∧ isNan r.status = false) :
    statusStep env d = d := by
  have hfix : ∀ (get : Row → Cell),
      (∀ r ∈ d.rows, applyStatusMap env (get r) = r.status ∧ isNan r.status = false) →
      (d.rows.filterMap fun r => (statusMapping (cellUpperStr env (get r))).map
        fun c => { r with status := Cell.str c }) = d.rows := by
    intro get hget
    apply list_filterMap_eq_self
    intro r hr
    obtain ⟨hmap, hnn⟩ := hget r hr
    cases hm : statusMapping (cellUpperStr env (get r)) with
    | none =>
      have hnan : applyStatusMap env (get r) = Cell.nan := by
        unfold applyStatusMap
        rw [hm]
      rw [hmap] at hnan
      rw [hnan] at hnn
      simp at hnn
    | some c =>
      have hstr : applyStatusMap env (get r) = Cell.str c := by
        unfold applyStatusMap
        rw [hm]
      rw [hmap] at hstr
      rw [Option.map_some']
      rw [← hstr]
  by_cases h1 : d.cols.txn_status_name = true
  · unfold statusStep
    dsimp only []
    have hcond : ({ d.cols with status := true } : Cols).status = true := rfl
    simp only [h1, if_true, hcond]
    rw [status_pipeline_filterMap env d.rows (·.txn_status_name)]
    rw [hfix _ (hr1 h1)]
    rw [← hs1 h1]
    have hx : d.cols.status = d.cols.txn_status_name := by rw [hs1 h1, h1]
    nth_rewrite 1 [hx]
    rfl
  · rw [Bool.not_eq_true] at h1
    by_cases h2 : d.cols.status = true
    · unfold statusStep
      dsimp only []
      simp only [h1, Bool.false_eq_true, if_false, h2, if_true]
      rw [status_pipeline_filterMap_self env d.rows]
      rw [hfix _ (hr2 h1 h2)]
    · rw [Bool.not_eq_true] at h2
      unfold statusStep
      simp only [h1, h2, Bool.false_eq_true, if_false]

lemma fillPayment_set (env : Env) (r : Row) (c : Cell) :
    fillPayment env { r with payment_method := c } =
      if isNan c = true then
        { r with payment_method := Cell.str (cellUpperStr env r.payment_mode_name) }
      else { r with payment_method := c } := by
  unfold fillPayment
  rfl

lemma row_set_merchant (r : Row) (c1 c2 : Cell) (h1 : r.merchant_name = c1)
    (h2 : r.merchant_id = c2) :
    ({ r with merchant_name := c1, merchant_id := c2 } : Row) = r := by
  obtain ⟨f1, f2, f3, f4, f5, f6, f7, f8, f9, f10, f11, f12, f13, f14, f15, f16, f17⟩ := r
  simp_all

lemma paymentStep_canon (env : Env) (d : DF)
    (hp1 : d.cols.payment_mode_name = true → d.cols.payment_method = true)
    (hp2 : d.cols.payment_method = true → d.cols.payment_mode_name = true)
    (hrp : d.cols.payment_mode_name = true → ∀ r ∈ d.rows,
      isNan r.payment_mode_name = false ∧
      paymentCanon env r.payment_mode_name = r.payment_method) :
    paymentStep env d = some d := by
  by_cases h1 : d.cols.payment_mode_name = true
  · unfold paymentStep
    dsimp only []
    have hcond : ({ d.cols with payment_method := true } : Cols).payment_method
        = true := rfl
    simp only [h1, if_true, hcond]
    have hf : ((d.rows.map fun r =>
          ({ r with payment_method := r.payment_mode_name } : Row)).filter
        fun r => !isNan r.payment_method)
        = d.rows.map fun r => ({ r with payment_method := r.payment_mode_name } : Row) := by
      apply List.filter_eq_self.mpr
      intro a ha
      rw [List.mem_map] at ha
      obtain ⟨r, hr, rfl⟩ := ha
      show (!isNan r.payment_mode_name) = true
      rw [(hrp h1 r hr).1]
      rfl
    rw [hf, List.map_map, List.map_map]
    have hmap : (d.rows.map ((fillPayment env ∘
        fun r => ({ r with payment_method := applyPaymentMap env r.payment_method } : Row)) ∘
        fun r => ({ r with payment_method := r.payment_mode_name } : Row))) = d.rows := by
      apply list_map_eq_self
      intro r hr
      obtain ⟨hnn, hpc⟩ := hrp h1 r hr
      show fillPayment env
        { r with payment_method := applyPaymentMap env r.payment_mode_name } = r
      rw [fillPayment_set]
      unfold paymentCanon at hpc
      by_cases hn : isNan (applyPaymentMap env r.payment_mode_name) = true
      · rw [if_pos hn]
        rw [if_pos hn] at hpc
        rw [hpc]
      · rw [if_neg hn]
        rw [if_neg hn] at hpc
        rw [hpc]
    rw [hmap]
    have hx : d.cols.payment_method = true := hp1 h1
    nth_rewrite 1 [← h1]
    nth_rewrite 1 [← hx]
    rfl
  · rw [Bool.not_eq_true] at h1
    have h2 : d.cols.payment_method = false := by
      revert hp2
      rw [h1]
      cases d.cols.payment_method <;> simp
    unfold paymentStep
    dsimp only []
    simp only [h1, Bool.false_eq_true, if_false, h2]

lemma merchantStep_canon (d : DF)
    (hm1 : d.cols.merchant_display_name = true → d.cols.merchant_name = true)
    (hm2 : d.cols.merchant_display_name = true → d.cols.merchant_id = true)
    (hrm : d.cols.merchant_display_name = true → ∀ r ∈ d.rows,
      isNan r.merchant_display_name = false ∧
      r.merchant_name = r.merchant_display_name ∧
      r.merchant_id = Cell.str "CSV_MERCHANT_001") :
    merchantStep d = d := by
  by_cases h1 : d.cols.merchant_display_name = true
  · unfold merchantStep
    dsimp only []
    simp only [h1, if_true]
    have hflt : (d.rows.filter fun r => !isNan r.merchant_display_name) = d.rows :=
      List.filter_eq_self.mpr fun r hr => by
        rw [(hrm h1 r hr).1]
        rfl
    rw [hflt]
    have hmap : (d.rows.map fun r =>
        ({ r with merchant_name := r.merchant_display_name
                  merchant_id := Cell.str "CSV_MERCHANT_001" } : Row)) = d.rows := by
      apply list_map_eq_self
      intro r hr
      obtain ⟨_, hn, hi⟩ := hrm h1 r hr
      exact row_set_merchant r _ _ hn hi
    rw [hmap]
    have hn1 : d.cols.merchant_name = true := hm1 h1
    have hn2 : d.cols.merchant_id = true := hm2 h1
    nth_rewrite 1 [← h1]
    nth_rewrite 1 [← hn1]
    nth_rewrite 1 [← hn2]
    rfl
  · rw [Bool.not_eq_true] at h1
    unfold merchantStep
    simp only [h1, Bool.false_eq_true, if_false]

lemma finalCheck_some (d : DF) (h : d.cols.merchant_name = true) :
    finalCheck d = some d := by
  unfold finalCheck
  simp [h]

lemma bimp {a b : Bool} (h : (!a || b) = true) (ha : a = true) : b = true := by
  revert h
  rw [ha]
  cases b <;> decide

lemma bnot_true {a : Bool} (h : (!a) = true) : a = false := by
  revert h
  cases a <;> decide

lemma canonRow_parts {env : Env} {c : Cols} {r : Row} (h : canonRow env c r = true) :
    (c.transaction_id = true → isNan r.transaction_id = false) ∧
    (c.merchant_display_name = true → isNan r.merchant_display_name = false) ∧
    (c.transaction_start_date_time = true → isNan r.transaction_start_date_time = false) ∧
    (c.amount = true → amountInBounds r.amount = true) ∧
    (c.created_at = true → timeOk env r) ∧
    (c.transaction_start_date_time = true →
      toDatetime env r.transaction_start_date_time = r.created_at) ∧
    (c.txn_status_name = true →
      applyStatusMap env r.txn_status_name = r.status ∧ isNan r.status = false) ∧
    (c.txn_status_name = false → c.status = true →
      applyStatusMap env r.status = r.status ∧ isNan r.status = false) ∧
    (c.payment_mode_name = true → isNan r.payment_mode_name = false ∧
      paymentCanon env r.payment_mode_name = r.payment_method) ∧
    (c.merchant_display_name = true → r.merchant_name = r.merchant_display_name ∧
      r.merchant_id = Cell.str "CSV_MERCHANT_001") := by
  unfold canonRow at h
  simp only [Bool.and_eq_true] at h
  obtain ⟨⟨⟨⟨⟨⟨⟨⟨⟨g1, g2⟩, g3⟩, g4⟩, g5⟩, g6⟩, g7⟩, g8⟩, g9⟩, g10⟩ := h
  refine ⟨fun ha => bnot_true (bimp g1 ha),
          fun ha => bnot_true (bimp g2 ha),
          fun ha => bnot_true (bimp g3 ha),
          fun ha => bimp g4 ha,
          fun ha => ?_, fun ha => ?_, fun ha => ?_,
          fun ht hs => ?_, fun ha => ?_, fun ha => ?_⟩
  · have hm := bimp g5 ha
    cases hca : r.created_at with
    | time t =>
      rw [hca] at hm
      simp only [Bool.and_eq_true, decide_eq_true_eq, beq_iff_eq] at hm
      exact ⟨t, hca, hm.1, hm.2⟩
    | nan => rw [hca] at hm; exact Bool.noConfusion hm
    | str s => rw [hca] at hm; exact Bool.noConfusion hm
    | num q => rw [hca] at hm; exact Bool.noConfusion hm
  · exact beq_iff_eq.mp (bimp g6 ha)
  · have hm := bimp g7 ha
    simp only [Bool.and_eq_true, beq_iff_eq] at hm
    exact ⟨hm.1.2, bnot_true hm.2⟩
  · have hm := bimp g8 (by rw [hs, ht]; rfl)
    simp only [Bool.and_eq_true, beq_iff_eq] at hm
    exact ⟨hm.1, bnot_true hm.2⟩
  · have hm := bimp g9 ha
    simp only [Bool.and_eq_true, beq_iff_eq] at hm
    exact ⟨bnot_true hm.1, hm.2⟩
  · have hm := bimp g10 ha
    simp only [Bool.and_eq_true, beq_iff_eq] at hm
    exact ⟨hm.1, hm.2⟩

lemma canonRow_divAmount (env : Env) (c : Cols) (r : Row)
    (h : canonRow env c r = true) :
    canonRow env c ({ r with amount := divCell r.amount } : Row) = true := by
  unfold canonRow at h ⊢
  simp only [Bool.and_eq_true] at h ⊢
  obtain ⟨⟨⟨⟨⟨⟨⟨⟨⟨g1, g2⟩, g3⟩, g4⟩, g5⟩, g6⟩, g7⟩, g8⟩, g9⟩, g10⟩ := h
  refine ⟨⟨⟨⟨⟨⟨⟨⟨⟨g1, g2⟩, g3⟩, ?_⟩, g5⟩, g6⟩, g7⟩, g8⟩, g9⟩, g10⟩
  cases hA : c.amount
  · rfl
  · show amountInBounds (divCell r.amount) = true
    exact amountInBounds_div r.amount (bimp g4 hA)

lemma paiseAdjust_cols (env : Env) (d : DF) : (paiseAdjust env d).cols = d.cols := by
  unfold paiseAdjust
  by_cases h : (d.cols.amount && d.cols.convenience_fees_amt_in_paise &&
      medianGT (d.rows.filterMap fun r => getNum r.amount) 10000) = true
  · rw [if_pos h]
  · rw [if_neg h]

lemma paiseAdjust_rows_ne (env : Env) (d : DF) (hne : d.rows ≠ []) :
    (paiseAdjust env d).rows ≠ [] := by
  unfold paiseAdjust
  by_cases h : (d.cols.amount && d.cols.convenience_fees_amt_in_paise &&
      medianGT (d.rows.filterMap fun r => getNum r.amount) 10000) = true
  · rw [if_pos h]
    show d.rows.map (fun r => ({ r with amount := divCell r.amount } : Row)) ≠ []
    simp [hne]
  · rw [if_neg h]
    exact hne

lemma paiseAdjust_canonRow (env : Env) (d : DF)
    (hall : ∀ r ∈ d.rows, canonRow env d.cols r = true) :
    ∀ r ∈ (paiseAdjust env d).rows, canonRow env d.cols r = true := by
  unfold paiseAdjust
  by_cases h : (d.cols.amount && d.cols.convenience_fees_amt_in_paise &&
      medianGT (d.rows.filterMap fun r => getNum r.amount) 10000) = true
  · rw [if_pos h]
    intro r hr
    have hr2 : r ∈ d.rows.map fun r => ({ r with amount := divCell r.amount } : Row) := hr
    rw [List.mem_map] at hr2
    obtain ⟨s, hs, rfl⟩ := hr2
    exact canonRow_divAmount env d.cols s (hall s hs)
  · rw [if_neg h]
    exact hall

lemma tail_steps_id (env : Env) (d : DF) (hne : d.rows ≠ [])
    (hcc : canonCols d.cols = true) (hmn : d.cols.merchant_name = true)
    (hall : ∀ r ∈ d.rows, canonRow env d.cols r = true) :
    (match paymentStep env (statusStep env (dateStep env d)) with
     | none => none
     | some d2 => finalCheck (merchantStep d2)) = some d := by
  have hcc2 := hcc
  unfold canonCols at hcc2
  simp only [Bool.and_eq_true] at hcc2
  obtain ⟨⟨⟨⟨⟨⟨⟨⟨⟨c1, c2⟩, c3⟩, c4⟩, c5⟩, c6⟩, c7⟩, c8⟩, c9⟩, c10⟩ := hcc2
  have hd : dateStep env d = d := by
    apply dateStep_canon env d hne c7 c8 c9 c10
    · intro h r hr
      exact (canonRow_parts (hall r hr)).2.2.2.2.2.1 h
    · intro h r hr
      exact (canonRow_parts (hall r hr)).2.2.2.2.1 h
  rw [hd]
  have hst : statusStep env d = d := by
    apply statusStep_canon env d (fun h => bimp c4 h)
    · intro h r hr
      exact (canonRow_parts (hall r hr)).2.2.2.2.2.2.1 h
    · intro h1 h2 r hr
      exact (canonRow_parts (hall r hr)).2.2.2.2.2.2.2.1 h1 h2
  rw [hst]
  have hpay : paymentStep env d = some d := by
    apply paymentStep_canon env d (fun h => bimp c5 h) (fun h => bimp c6 h)
    intro h r hr
    exact (canonRow_parts (hall r hr)).2.2.2.2.2.2.2.2.1 h
  rw [hpay]
  show finalCheck (merchantStep d) = some d
  have hmer : merchantStep d = d := by
    apply merchantStep_canon d
    · intro h
      have hx := bimp c3 h
      simp only [Bool.and_eq_true] at hx
      exact hx.1
    · intro h
      have hx := bimp c3 h
      simp only [Bool.and_eq_true] at hx
      exact hx.2
    · intro h r hr
      have hq2 := (canonRow_parts (hall r hr)).2.1 h
      have hq10 := (canonRow_parts (hall r hr)).2.2.2.2.2.2.2.2.2 h
      exact ⟨hq2, hq10.1, hq10.2⟩
  rw [hmer]
  exact finalCheck_some d hmn

lemma canonical_reclean (env : Env) (d : DF)
    (hc : canonicalDF env d = true) (hns : noSparse d = true) :
    cleanTransactionData env d = some (paiseAdjust env d) := by
  by_cases hemp : d.rows.isEmpty = true
  · have hnil : d.rows = [] := List.isEmpty_iff.mp hemp
    unfold cleanTransactionData paiseAdjust
    rw [if_pos hemp, hnil]
    rw [show (List.filterMap (fun r => getNum r.amount) ([] : List Row)) = [] from rfl]
    rw [show medianGT ([] : List ℚ) 10000 = false from rfl]
    simp
  · have hne : d.rows ≠ [] := by
      intro h
      rw [h] at hemp
      exact hemp rfl
    have hempf : d.rows.isEmpty = false := by
      revert hemp
      cases d.rows.isEmpty <;> simp
    have hc2 : (canonCols d.cols && d.cols.merchant_name &&
        d.rows.all (canonRow env d.cols)) = true := by
      revert hc
      unfold canonicalDF
      rw [hempf]
      intro hc
      simpa using hc
    simp only [Bool.and_eq_true] at hc2
    obtain ⟨⟨hcc, hmn⟩, hallb⟩ := hc2
    have hall : ∀ r ∈ d.rows, canonRow env d.cols r = true := by
      intro r hr
      exact List.all_eq_true.mp hallb r hr
    have hab : d.cols.amount = true → ∀ r ∈ d.rows, amountInBounds r.amount = true := by
      intro hA r hr
      exact (canonRow_parts (hall r hr)).2.2.2.1 hA
    have hcs : criticalStep d = d := by
      apply criticalStep_id d
      · intro hA r hr
        rw [(canonRow_parts (hall r hr)).1 hA]
        rfl
      · intro hA r hr
        have hx := amountInBounds_parts ((canonRow_parts (hall r hr)).2.2.2.1 hA)
        rw [hx.2.2]
        rfl
      · intro hA r hr
        rw [(canonRow_parts (hall r hr)).2.1 hA]
        rfl
      · intro hA r hr
        rw [(canonRow_parts (hall r hr)).2.2.1 hA]
        rfl
    unfold cleanTransactionData
    rw [if_neg hemp]
    dsimp only []
    rw [pruneStep_id d hns, mapStep_id d hcc, hcs, amountStep_canon env d hab]
    apply tail_steps_id env (paiseAdjust env d)
    · exact paiseAdjust_rows_ne env d hne
    · rw [paiseAdjust_cols]
      exact hcc
    · rw [paiseAdjust_cols]
      exact hmn
    · intro r hr
      rw [paiseAdjust_cols]
      exact paiseAdjust_canonRow env d hall r hr

/-- C5: Normalization is not idempotent, but its failure is confined to the
unit-correction heuristic: re-running `_clean_transaction_data` on a canonical
output (a frame satisfying the invariants cleaning establishes, with no
retained column sparse over the retained rows) drops no rows and changes no
field except `amount` - and `amount` is divided by exactly 100 again precisely
when the minor-unit indicator column is present and the cleaned amounts'
median still exceeds 10,000; otherwise the frame is returned unchanged. -/
theorem reclean_spec (env : Env) (d : DF)
    (hc : canonicalDF env d = true) (hns : noSparse d = true) :
    cleanTransactionData env d =
      some (if d.cols.amount && d.cols.convenience_fees_amt_in_paise &&
          medianGT (d.rows.filterMap fun r => getNum r.amount) 10000 then
        { d with rows := d.rows.map fun r => { r with amount := divCell r.amount } }
      else d) := by
  rw [canonical_reclean env d hc hns]
  rfl

set_option maxRecDepth 2000 in
/-- Witness for `reclean_spec`: the cleaned paise frame is canonical and
non-sparse, and a second cleaning pass divides its amount by 100 again. -/
theorem reclean_spec_witness :
    canonicalDF cexEnv paiseOutDF = true ∧ noSparse paiseOutDF = true ∧
    cleanTransactionData cexEnv paiseOutDF =
      some (if paiseOutDF.cols.amount && paiseOutDF.cols.convenience_fees_amt_in_paise &&
          medianGT (paiseOutDF.rows.filterMap fun r => getNum r.amount) 10000 then
        { paiseOutDF with rows := paiseOutDF.rows.map fun r =>
            { r with amount := divCell r.amount } }
      else paiseOutDF) :=
  ⟨by with_unfolding_all decide, by with_unfolding_all decide,
   reclean_spec cexEnv paiseOutDF (by with_unfolding_all decide)
     (by with_unfolding_all decide)⟩

/-- Witness for `payment_method_gap_spec`: a concrete two-method dataset with
a 100% vs 0% success-rate gap emits the insight. -/
theorem payment_method_gap_spec_witness :
    ∃ i ∈ getGrowthInsights
      [⟨100, "SUCCESS", "UPI", "2024-01-01"⟩, ⟨200, "FAILED", "WALLET", "2024-01-01"⟩],
      i.itype = "PAYMENT_METHOD_OPTIMIZATION" :=
  (payment_method_gap_spec
    [⟨100, "SUCCESS", "UPI", "2024-01-01"⟩, ⟨200, "FAILED", "WALLET", "2024-01-01"⟩]).1.mpr
    (by
      refine ⟨by with_unfolding_all decide, "UPI", "WALLET", ?_, ?_, ?_, ?_, ?_⟩ <;>
        with_unfolding_all decide)

end MerchantPwr
